import Mathlib

/-!
Verification of the Amazon-CSV-to-YNAB transaction pipeline
(source files `amazon_csv_to_ynab.py` and `ynab_import.py`).

Modelling conventions:
* Python strings are modelled as lists of Unicode code points (`List Nat`);
  `strToL` converts a Lean string literal into that representation.
* Python `int` and date arithmetic are modelled with `Int`/`Nat`.
* Python `float` is modelled exactly where the code's behaviour depends on
  it: decimal literals are parsed into sign/numerator/power-of-ten
  denominator triples, and IEEE-754 binary64 rounding (round to nearest,
  ties to even, normal range) is implemented on integers.
* Fallible operations return `Option`.
-/

def strToL (s : String) : List Nat := s.data.map Char.toNat

/-! ## Calendar arithmetic (Python `datetime.date`)

`toordinal` is the proleptic-Gregorian day number used by Python's
`datetime.date.toordinal`; subtraction of two dates in the source
(`(import_date - existing_date).days`) equals the difference of ordinals. -/

/-- Leap year test of the Gregorian calendar (Python `calendar.isleap`). -/
def isleap (y : Nat) : Bool := decide (y % 4 = 0 ∧ (y % 100 ≠ 0 ∨ y % 400 = 0))

/-- Number of days in month `m` of year `y` (Python `calendar.monthrange`). -/
def days_in_month (y m : Nat) : Nat :=
  if m = 2 then (if isleap y then 29 else 28)
  else if m = 4 ∨ m = 6 ∨ m = 9 ∨ m = 11 then 30
  else 31

/-- Days in year `y` strictly before month `m`. -/
def days_before_month (y m : Nat) : Nat :=
  (List.range (m - 1)).foldl (fun acc i => acc + days_in_month y (i + 1)) 0

/-- Proleptic Gregorian ordinal of the date `y-m-d`;
day 1 is January 1 of year 1 (Python `date.toordinal`). -/
def toordinal (y m d : Nat) : Int :=
  ((y : Int) - 1) * 365 + ((y : Int) - 1) / 4 - ((y : Int) - 1) / 100
    + ((y : Int) - 1) / 400 + (days_before_month y m : Int) + (d : Int)

/-! ## Reconciler (`ynab_import.py`)

The ledger index `existing_by_amount` is a dict from integer minor-unit
amount to the list of dates (ordinals) of existing transactions with that
amount; it is modelled as an association list in insertion order. -/

/-- Dict lookup `existing_by_amount[amount]` (`None` when absent). -/
def lookup_amount (idx : List (Int × List Int)) (amt : Int) : Option (List Int) :=
  (idx.find? (fun p => decide (p.1 = amt))).map (fun p => p.2)

/-- `is_duplicate` from `ynab_import.py` (lines 122-128): a candidate with
date `dte` and minor-unit amount `amt` is a duplicate iff the index has the
exact amount and some existing date is within `tol` days (inclusive). -/
def is_duplicate (idx : List (Int × List Int)) (tol : Int) (dte amt : Int) : Bool :=
  match lookup_amount idx amt with
  | none => false
  | some ds => ds.any (fun e => decide (|dte - e| ≤ tol))

/-- `existing_by_amount` construction (lines 115-117): append each fetched
transaction's date to the list for its amount, inserting a fresh key on
first occurrence (dict insertion order). -/
def add_to_index (idx : List (Int × List Int)) (amt dte : Int) : List (Int × List Int) :=
  if idx.any (fun p => decide (p.1 = amt)) then
    idx.map (fun p => if p.1 = amt then (p.1, p.2 ++ [dte]) else p)
  else idx ++ [(amt, [dte])]

/-- The full index built from the fetched transactions, in fetch order. -/
def build_index (txs : List (Int × Int)) : List (Int × List Int) :=
  txs.foldl (fun m t => add_to_index m t.1 t.2) []

/-- The duplicate-skipping loop of `main` (lines 130-136): returns the rows
kept for import, in order, together with the `skipped_duplicates` count. -/
def select_rows (idx : List (Int × List Int)) (tol : Int) :
    List (Int × Int) → List (Int × Int) × Nat
  | [] => ([], 0)
  | c :: cs =>
    let rest := select_rows idx tol cs
    if is_duplicate idx tol c.1 c.2 then (rest.1, rest.2 + 1)
    else (c :: rest.1, rest.2)

/-- The duplicate-protection phase of `main` (lines 98-136): build the index
from the fetch result (leaving it empty and warning when the fetch failed),
then classify every CSV row.  Returns (warning-was-printed, rows kept,
skipped count). -/
def reconcile (fetched : Except Unit (List (Int × Int))) (tol : Int)
    (rows : List (Int × Int)) : Bool × List (Int × Int) × Nat :=
  match fetched with
  | Except.ok txs => (false, select_rows (build_index txs) tol rows)
  | Except.error _ => (true, select_rows [] tol rows)

/-- C1: duplicate classification holds iff the index contains the exact
minor-unit amount and some ledger date under that amount is within
`toleranceDays` (inclusive, symmetric) of the candidate date; concretely, a
candidate dated 2024-03-10 of amount -50.00 (minor units -50000) against a
ledger transaction dated 2024-03-13 of the same amount is a duplicate at
tolerance 5 and not a duplicate at tolerance 2. -/
theorem is_duplicate_spec :
    (∀ (idx : List (Int × List Int)) (tol dte amt : Int),
      is_duplicate idx tol dte amt = true ↔
        ∃ ds, lookup_amount idx amt = some ds ∧ ∃ e ∈ ds, |dte - e| ≤ tol)
    ∧ is_duplicate [(-50000, [toordinal 2024 3 13])] 5 (toordinal 2024 3 10) (-50000) = true
    ∧ is_duplicate [(-50000, [toordinal 2024 3 13])] 2 (toordinal 2024 3 10) (-50000) = false := by
  refine ⟨fun idx tol dte amt => ?_, by decide, by decide⟩
  unfold is_duplicate
  cases h : lookup_amount idx amt with
  | none => simp [h]
  | some ds => simp [h, List.any_eq_true]

/-- C9: when the remote fetch of existing transactions fails, the run warns
and continues with an empty index, every candidate is classified
not-duplicate, and all rows proceed to submission with zero skips. -/
theorem fetch_failure_degrades :
    (∀ (e : Unit) (tol : Int) (rows : List (Int × Int)),
      reconcile (Except.error e) tol rows = (true, rows, 0))
    ∧ ∀ (tol dte amt : Int), is_duplicate [] tol dte amt = false := by
  constructor
  · intro e tol rows
    show (true, select_rows [] tol rows) = (true, rows, 0)
    have h : ∀ rs : List (Int × Int), select_rows [] tol rs = (rs, 0) := by
      intro rs
      induction rs with
      | nil => rfl
      | cons c cs ih => simp [select_rows, ih, is_duplicate, lookup_amount]
    rw [h]
  · intro tol dte amt
    rfl

/-- C10: classification is independent per candidate: the kept rows are
exactly the pointwise filter of the input by the (fixed-index) duplicate
test, the skipped count is the number of rows failing it, and two identical
candidates matching nothing in the index are both kept and submitted. -/
theorem classification_independent (idx : List (Int × List Int)) (tol : Int)
    (rows : List (Int × Int)) :
    (select_rows idx tol rows).1
        = rows.filter (fun c => !(is_duplicate idx tol c.1 c.2))
    ∧ (select_rows idx tol rows).2
        = (rows.filter (fun c => is_duplicate idx tol c.1 c.2)).length
    ∧ ∀ c : Int × Int, is_duplicate idx tol c.1 c.2 = false →
        select_rows idx tol [c, c] = ([c, c], 0) := by
  refine ⟨?_, ?_, ?_⟩
  · induction rows with
    | nil => rfl
    | cons c cs ih =>
      by_cases h : is_duplicate idx tol c.1 c.2 <;>
        simp [select_rows, List.filter_cons, h, ih]
  · induction rows with
    | nil => rfl
    | cons c cs ih =>
      by_cases h : is_duplicate idx tol c.1 c.2 <;>
        simp [select_rows, List.filter_cons, h, ih]
  · intro c hc
    simp [select_rows, hc]

/-- Witness for C10 at a concrete input: two identical 2024-03-10 candidates
of amount -50000 against an empty index are both kept. -/
theorem classification_independent_witness :
    select_rows [] 5 [(toordinal 2024 3 10, -50000), (toordinal 2024 3 10, -50000)]
      = ([(toordinal 2024 3 10, -50000), (toordinal 2024 3 10, -50000)], 0) :=
  (classification_independent [] 5 []).2.2 (toordinal 2024 3 10, -50000) (by decide)

/-! ## Record Builder (`amazon_csv_to_ynab.py`)

Sign convention (lines 137-144) and intra-batch deduplication
(lines 157-164). -/

/-- ASCII lower-casing of one code point (Python `str.lower` on the
characters relevant here). -/
def toLowerN (c : Nat) : Nat := if 65 ≤ c ∧ c ≤ 90 then c + 32 else c

/-- Python `str.lower()` on a whole string. -/
def lowerL (s : List Nat) : List Nat := s.map toLowerN

/-- Prefix test on code-point lists. -/
def isPrefixOfL : List Nat → List Nat → Bool
  | [], _ => true
  | _ :: _, [] => false
  | p :: ps, c :: cs => decide (p = c) && isPrefixOfL ps cs

/-- Python substring containment `pat in s` (contiguous). -/
def containsSub (pat : List Nat) : List Nat → Bool
  | [] => pat.isEmpty
  | c :: t => isPrefixOfL pat (c :: t) || containsSub pat t

/-- The refund-keyword test of line 138-141:
`any(x in memo.lower() for x in ["return", "refund", "reimbursement"])`. -/
def has_refund_keyword (memo_str : List Nat) : Bool :=
  containsSub (strToL "return") (lowerL memo_str)
    || containsSub (strToL "refund") (lowerL memo_str)
    || containsSub (strToL "reimbursement") (lowerL memo_str)

/-- The signed amount stored in the output record (lines 137-144):
kept positive only for positive amounts with a refund keyword, otherwise
`-abs(amount)`, with an exact zero kept as `0`. -/
def amount_ynab (amount_val : ℚ) (memo_str : List Nat) : ℚ :=
  if 0 < amount_val ∧ has_refund_keyword memo_str = true then amount_val
  else if amount_val ≠ 0 then -|amount_val| else 0

/-- C2: the stored amount equals the parsed amount and is positive iff the
parsed amount is strictly positive and the lowercased memo contains one of
"return", "refund", "reimbursement"; in every other case the stored amount
is the negation of the absolute value, and zero is stored as exactly
zero. -/
theorem amount_sign_convention (amount_val : ℚ) (memo_str : List Nat) :
    ((amount_ynab amount_val memo_str = amount_val ∧ 0 < amount_ynab amount_val memo_str)
      ↔ (0 < amount_val ∧
          (containsSub (strToL "return") (lowerL memo_str) = true
            ∨ containsSub (strToL "refund") (lowerL memo_str) = true
            ∨ containsSub (strToL "reimbursement") (lowerL memo_str) = true)))
    ∧ (¬(0 < amount_val ∧ has_refund_keyword memo_str = true) →
        amount_ynab amount_val memo_str = -|amount_val|)
    ∧ amount_ynab 0 memo_str = 0 := by
  have hkw : has_refund_keyword memo_str = true ↔
      (containsSub (strToL "return") (lowerL memo_str) = true
        ∨ containsSub (strToL "refund") (lowerL memo_str) = true
        ∨ containsSub (strToL "reimbursement") (lowerL memo_str) = true) := by
    simp [has_refund_keyword, or_assoc]
  refine ⟨?_, ?_, ?_⟩
  · by_cases h : 0 < amount_val ∧ has_refund_keyword memo_str = true
    · simp [amount_ynab, h, ← hkw, h.1, h.2]
    · simp only [amount_ynab, if_neg h]
      constructor
      · intro hcon
        by_cases hz : amount_val ≠ 0
        · rw [if_pos hz] at hcon
          have habs : |amount_val| < 0 := by
            have := hcon.2
            simpa using this
          exact absurd habs (not_lt.mpr (abs_nonneg _))
        · rw [if_neg hz] at hcon
          exact absurd hcon.2 (lt_irrefl 0)
      · intro hrhs
        exact absurd ⟨hrhs.1, hkw.mpr hrhs.2⟩ h
  · intro h
    by_cases hz : amount_val ≠ 0
    · simp [amount_ynab, h, hz]
    · push_neg at hz
      simp [amount_ynab, h, hz]
  · norm_num [amount_ynab]

/-- Witness for C2: a positive amount with "refund" in the memo is stored
unchanged, and a plain purchase amount is stored negated. -/
theorem amount_sign_convention_witness :
    amount_ynab 5 (strToL "Refund of toy") = 5
      ∧ amount_ynab 5 (strToL "kid toy") = -5 := by
  constructor
  · exact ((amount_sign_convention 5 (strToL "Refund of toy")).1.mpr
      ⟨by norm_num, Or.inr (Or.inl (by decide))⟩).1
  · have h := (amount_sign_convention 5 (strToL "kid toy")).2.1 (by decide)
    rw [h]
    norm_num

/-- An output record of the conversion stage (lines 147-155). -/
structure YnabRow where
  date : List Nat
  payee : List Nat
  memo : List Nat
  amount : ℚ
  category : List Nat
deriving DecidableEq

/-- The dedup key of line 161: `(r["Date"], r["Amount"], r["Memo"][:100])`. -/
def dedup_key (r : YnabRow) : List Nat × ℚ × List Nat :=
  (r.date, r.amount, r.memo.take 100)

/-- The dedup loop of lines 157-164: keep a row iff its key has not been
seen, recording seen keys. -/
def dedup_rows (seen : List (List Nat × ℚ × List Nat)) :
    List YnabRow → List YnabRow
  | [] => []
  | r :: rs =>
    if dedup_key r ∈ seen then dedup_rows seen rs
    else r :: dedup_rows (dedup_key r :: seen) rs

/-- Specification-level dedup: keep each first record and delete every later
record with an equal key, preserving order. -/
def keep_firsts : List YnabRow → List YnabRow
  | [] => []
  | r :: rs => r :: keep_firsts (rs.filter (fun x => decide (dedup_key x ≠ dedup_key r)))
termination_by l => l.length
decreasing_by
  simp only [List.length_cons]
  exact Nat.lt_succ_of_le (List.length_filter_le _ _)

theorem dedup_rows_eq_aux (rows : List YnabRow) :
    ∀ seen, dedup_rows seen rows
      = keep_firsts (rows.filter (fun r => decide (dedup_key r ∉ seen))) := by
  induction rows with
  | nil => intro seen; simp [dedup_rows, keep_firsts]
  | cons r rs ih =>
    intro seen
    by_cases h : dedup_key r ∈ seen
    · simp only [dedup_rows, if_pos h]
      rw [ih seen]
      congr 1
      simp [List.filter_cons, h]
    · simp only [dedup_rows, if_neg h]
      rw [ih (dedup_key r :: seen)]
      have hfc : (r :: rs).filter (fun x => decide (dedup_key x ∉ seen))
          = r :: rs.filter (fun x => decide (dedup_key x ∉ seen)) := by
        simp [List.filter_cons, h]
      rw [hfc]
      simp only [keep_firsts, List.filter_filter]
      congr 1
      congr 1
      apply List.filter_congr
      intro x _
      by_cases h1 : dedup_key x = dedup_key r <;>
        by_cases h2 : dedup_key x ∈ seen <;> simp [h1, h2]

theorem dedup_rows_sublist (rows : List YnabRow) :
    ∀ seen, (dedup_rows seen rows).Sublist rows := by
  induction rows with
  | nil => intro seen; simp [dedup_rows]
  | cons r rs ih =>
    intro seen
    by_cases h : dedup_key r ∈ seen
    · simp only [dedup_rows, if_pos h]
      exact (ih seen).cons r
    · simp only [dedup_rows, if_neg h]
      exact (ih (dedup_key r :: seen)).cons₂ r

/-- C3: the batch dedup keeps exactly the first record of each
(date, amount, memo-prefix-100) key, drops every later record with an equal
key, keeps records whose key differs, and preserves input order (the output
is a sublist of the input). -/
theorem dedup_spec (rows : List YnabRow) :
    dedup_rows [] rows = keep_firsts rows
      ∧ (dedup_rows [] rows).Sublist rows := by
  constructor
  · rw [dedup_rows_eq_aux rows []]
    congr 1
    exact List.filter_eq_self.mpr (fun a _ => by simp)
  · exact dedup_rows_sublist rows []

/-! ## Value Normalizer: amounts (`amazon_csv_to_ynab.py` lines 68-75)

`_parse_amount` strips the string, removes `","`, `"$"` and `"CAD"`
(single left-to-right pass each, Python `str.replace`), strips again and
parses the result as a float. -/

/-- Python `str.strip()` whitespace set (space, tab, LF, CR, VT, FF). -/
def isSpaceN (c : Nat) : Bool :=
  decide (c = 32 ∨ c = 9 ∨ c = 10 ∨ c = 13 ∨ c = 11 ∨ c = 12)

/-- Leading-whitespace removal. -/
def lstrip (s : List Nat) : List Nat := s.dropWhile isSpaceN

/-- Trailing-whitespace removal. -/
def rstrip (s : List Nat) : List Nat := (s.reverse.dropWhile isSpaceN).reverse

/-- Python `str.strip()`. -/
def pyStrip (s : List Nat) : List Nat := rstrip (lstrip s)

/-- Python `str.replace(c, "")` for a single-character pattern. -/
def removeAll (c : Nat) (s : List Nat) : List Nat :=
  s.filter (fun x => decide (x ≠ c))

/-- Python `str.replace("CAD", "")`: one left-to-right pass removing
non-overlapping occurrences of `C`,`A`,`D` (codes 67,65,68). -/
def removeCAD : List Nat → List Nat
  | a :: b :: c :: rest =>
    if a = 67 ∧ b = 65 ∧ c = 68 then removeCAD rest
    else a :: removeCAD (b :: c :: rest)
  | s => s

/-- The decoration-removal pipeline of line 71:
`.replace(",", "").replace("$", "").replace("CAD", "")`. -/
def strip_decorations (s : List Nat) : List Nat :=
  removeCAD (removeAll 36 (removeAll 44 s))

/-- ASCII decimal digit test. -/
def isDigitN (c : Nat) : Bool := decide (48 ≤ c ∧ c ≤ 57)

/-- Value of a digit string (most significant first). -/
def digitsVal (ds : List Nat) : Nat := ds.foldl (fun acc c => acc * 10 + (c - 48)) 0

/-- Python `float(s)` on the decimal literals this pipeline produces and
consumes: surrounding whitespace, an optional sign, an integer part and an
optional fractional part (at least one digit overall).  Returns
(negative?, numerator, power-of-ten denominator); `none` models
`ValueError`.  (Exponents, `inf`/`nan` and digit underscores are outside
the amount grammar of this data and are not modelled.) -/
def pyFloatParts (s : List Nat) : Option (Bool × Nat × Nat) :=
  let t := pyStrip s
  let sg : Bool × List Nat :=
    match t with
    | 45 :: r => (true, r)
    | 43 :: r => (false, r)
    | r => (false, r)
  let ip := sg.2.takeWhile isDigitN
  let r1 := sg.2.dropWhile isDigitN
  match r1 with
  | [] => if ip.isEmpty then none else some (sg.1, digitsVal ip, 1)
  | 46 :: r2 =>
    let fp := r2.takeWhile isDigitN
    let r3 := r2.dropWhile isDigitN
    if r3.isEmpty && !(ip.isEmpty && fp.isEmpty) then
      some (sg.1, digitsVal ip * 10 ^ fp.length + digitsVal fp, 10 ^ fp.length)
    else none
  | _ => none

/-- The rational value denoted by a parsed float literal. -/
def partsVal (p : Bool × Nat × Nat) : ℚ :=
  (if p.1 then -1 else 1) * ((p.2.1 : ℚ) / (p.2.2 : ℚ))

/-- Python `float(s)` as an exact rational (`none` = `ValueError`). -/
def pyFloatQ (s : List Nat) : Option ℚ := (pyFloatParts s).map partsVal

/-- `_parse_amount` (lines 68-75): `None` for empty/whitespace input,
otherwise strip, remove decorations, strip, parse as float
(`None` on parse failure). -/
def parse_amount (s : List Nat) : Option ℚ :=
  if (pyStrip s).isEmpty then none
  else pyFloatQ (pyStrip (strip_decorations (pyStrip s)))

theorem removeCAD_cons (c : Nat) (t : List Nat)
    (h : ¬(c = 67 ∧ ∃ r, t = 65 :: 68 :: r)) :
    removeCAD (c :: t) = c :: removeCAD t := by
  match t with
  | [] => rfl
  | [b] => rfl
  | b :: c2 :: r =>
    have hn : ¬(c = 67 ∧ b = 65 ∧ c2 = 68) := by
      rintro ⟨h1, h2, h3⟩
      exact h ⟨h1, r, by rw [h2, h3]⟩
    simp only [removeCAD, if_neg hn]

theorem ws_ne_codes {c : Nat} (h : isSpaceN c = true) :
    c ≠ 67 ∧ c ≠ 65 ∧ c ≠ 68 ∧ c ≠ 44 ∧ c ≠ 36 := by
  simp only [isSpaceN, decide_eq_true_eq] at h
  omega

theorem ws_no_AD {q : List Nat} (hq : ∀ c ∈ q, isSpaceN c = true) :
    ¬∃ r, q = 65 :: 68 :: r := by
  rintro ⟨r, rfl⟩
  exact (ws_ne_codes (hq 65 (by simp))).2.1 rfl

theorem removeCAD_allws (q : List Nat) (hq : ∀ c ∈ q, isSpaceN c = true) :
    removeCAD q = q := by
  induction q with
  | nil => rfl
  | cons c t ih =>
    have hc := ws_ne_codes (hq c (by simp))
    rw [removeCAD_cons c t (fun hcon => hc.1 hcon.1)]
    rw [ih (fun x hx => hq x (by simp [hx]))]

theorem removeCAD_ws_prefix (p x : List Nat) (hp : ∀ c ∈ p, isSpaceN c = true) :
    removeCAD (p ++ x) = p ++ removeCAD x := by
  induction p with
  | nil => simp
  | cons c p2 ih =>
    have hc := ws_ne_codes (hp c (by simp))
    rw [List.cons_append, removeCAD_cons c (p2 ++ x) (fun hcon => hc.1 hcon.1)]
    rw [ih (fun y hy => hp y (by simp [hy])), List.cons_append]

theorem removeCAD_CAD (z : List Nat) : removeCAD (67 :: 65 :: 68 :: z) = removeCAD z := by
  simp [removeCAD]

theorem removeCAD_cons3 (a b c : Nat) (z : List Nat) (h : ¬(a = 67 ∧ b = 65 ∧ c = 68)) :
    removeCAD (a :: b :: c :: z) = a :: removeCAD (b :: c :: z) := by
  simp [removeCAD, if_neg h]

theorem removeCAD_ws_suffix (x q : List Nat) (hq : ∀ c ∈ q, isSpaceN c = true) :
    removeCAD (x ++ q) = removeCAD x ++ q := by
  induction x using removeCAD.induct with
  | case1 a b c rest hc ih =>
    obtain ⟨ha, hb, hcc⟩ := hc
    subst ha hb hcc
    simp only [List.cons_append, removeCAD_CAD]
    exact ih
  | case2 a b c rest hc ih =>
    simp only [List.cons_append] at ih ⊢
    rw [removeCAD_cons3 a b c (rest ++ q) hc, removeCAD_cons3 a b c rest hc, ih]
    simp
  | case3 s hs =>
    match s, hs with
    | [], _ => simpa using removeCAD_allws q hq
    | [a], _ =>
      have h1 : ¬(a = 67 ∧ ∃ r, q = 65 :: 68 :: r) := fun hcon => ws_no_AD hq hcon.2
      simp only [List.cons_append, List.nil_append]
      rw [removeCAD_cons a q h1, removeCAD_allws q hq]
      rfl
    | [a, b], _ =>
      have h2 : ¬(b = 67 ∧ ∃ r, q = 65 :: 68 :: r) := fun hcon => ws_no_AD hq hcon.2
      have h1 : ¬(a = 67 ∧ ∃ r, b :: q = 65 :: 68 :: r) := by
        rintro ⟨-, r, hr⟩
        injection hr with hb hr2
        exact (ws_ne_codes (hq 68 (hr2 ▸ by simp))).2.2.1 rfl
      simp only [List.cons_append, List.nil_append]
      rw [removeCAD_cons a (b :: q) h1, removeCAD_cons b q h2, removeCAD_allws q hq]
      rfl
    | a :: b :: c :: rest, hs => exact absurd rfl (hs a b c rest)

theorem dropWhile_ws_prefix (p y : List Nat) (hp : ∀ c ∈ p, isSpaceN c = true) :
    (p ++ y).dropWhile isSpaceN = y.dropWhile isSpaceN := by
  induction p with
  | nil => simp
  | cons c p2 ih =>
    simp only [List.cons_append, List.dropWhile_cons, hp c (by simp), if_true]
    exact ih (fun x hx => hp x (by simp [hx]))

theorem dropWhile_allws (q : List Nat) (hq : ∀ c ∈ q, isSpaceN c = true) :
    q.dropWhile isSpaceN = [] := by
  have := dropWhile_ws_prefix q [] hq
  simpa using this

theorem rstrip_ws_suffix (y q : List Nat) (hq : ∀ c ∈ q, isSpaceN c = true) :
    rstrip (y ++ q) = rstrip y := by
  unfold rstrip
  rw [List.reverse_append,
    dropWhile_ws_prefix q.reverse y.reverse (fun c hc => hq c (List.mem_reverse.mp hc))]

theorem pyStrip_pad (p y q : List Nat) (hp : ∀ c ∈ p, isSpaceN c = true)
    (hq : ∀ c ∈ q, isSpaceN c = true) :
    pyStrip (p ++ y ++ q) = pyStrip y := by
  unfold pyStrip lstrip
  rw [List.append_assoc, dropWhile_ws_prefix p (y ++ q) hp, List.dropWhile_append]
  by_cases h : (y.dropWhile isSpaceN).isEmpty
  · rw [if_pos h, dropWhile_allws q hq, List.isEmpty_iff.mp h]
  · rw [if_neg h, rstrip_ws_suffix _ q hq]

theorem pyStrip_decomp (s : List Nat) :
    ∃ p q, s = p ++ pyStrip s ++ q
      ∧ (∀ c ∈ p, isSpaceN c = true) ∧ (∀ c ∈ q, isSpaceN c = true) := by
  refine ⟨s.takeWhile isSpaceN, ((lstrip s).reverse.takeWhile isSpaceN).reverse,
    ?_, fun c hc => List.mem_takeWhile_imp hc,
    fun c hc => List.mem_takeWhile_imp (List.mem_reverse.mp hc)⟩
  have h2 : lstrip s = pyStrip s ++ ((lstrip s).reverse.takeWhile isSpaceN).reverse := by
    show lstrip s = rstrip (lstrip s) ++ _
    unfold rstrip
    calc lstrip s = ((lstrip s).reverse).reverse := (List.reverse_reverse _).symm
    _ = ((lstrip s).reverse.takeWhile isSpaceN
          ++ (lstrip s).reverse.dropWhile isSpaceN).reverse := by
        rw [List.takeWhile_append_dropWhile]
    _ = ((lstrip s).reverse.dropWhile isSpaceN).reverse
          ++ ((lstrip s).reverse.takeWhile isSpaceN).reverse := by
        rw [List.reverse_append]
  rw [List.append_assoc, ← h2]
  exact (List.takeWhile_append_dropWhile (p := isSpaceN) (l := s)).symm

theorem pyStrip_empty_allws (s : List Nat) (h : pyStrip s = []) :
    ∀ c ∈ s, isSpaceN c = true := by
  intro c hc
  obtain ⟨p, q, hs, hp, hq⟩ := pyStrip_decomp s
  rw [h] at hs
  rw [hs] at hc
  simp only [List.append_nil, List.mem_append] at hc
  rcases hc with hc | hc
  · exact hp c hc
  · exact hq c hc

theorem removeAll_ws_fix (k : Nat) (p : List Nat) (hp : ∀ c ∈ p, isSpaceN c = true)
    (hk : k = 44 ∨ k = 36) : removeAll k p = p := by
  refine List.filter_eq_self.mpr (fun c hc => ?_)
  have h := ws_ne_codes (hp c hc)
  rcases hk with rfl | rfl
  · simpa using h.2.2.2.1
  · simpa using h.2.2.2.2

theorem SD_ws_prefix (p x : List Nat) (hp : ∀ c ∈ p, isSpaceN c = true) :
    strip_decorations (p ++ x) = p ++ strip_decorations x := by
  unfold strip_decorations
  rw [show removeAll 44 (p ++ x) = removeAll 44 p ++ removeAll 44 x from List.filter_append _ _,
    removeAll_ws_fix 44 p hp (Or.inl rfl),
    show removeAll 36 (p ++ removeAll 44 x)
      = removeAll 36 p ++ removeAll 36 (removeAll 44 x) from List.filter_append _ _,
    removeAll_ws_fix 36 p hp (Or.inr rfl),
    removeCAD_ws_prefix p _ hp]

theorem SD_ws_suffix (x q : List Nat) (hq : ∀ c ∈ q, isSpaceN c = true) :
    strip_decorations (x ++ q) = strip_decorations x ++ q := by
  unfold strip_decorations
  rw [show removeAll 44 (x ++ q) = removeAll 44 x ++ removeAll 44 q from List.filter_append _ _,
    removeAll_ws_fix 44 q hq (Or.inl rfl),
    show removeAll 36 (removeAll 44 x ++ q)
      = removeAll 36 (removeAll 44 x) ++ removeAll 36 q from List.filter_append _ _,
    removeAll_ws_fix 36 q hq (Or.inr rfl),
    removeCAD_ws_suffix _ q hq]

theorem SD_allws (s : List Nat) (hs : ∀ c ∈ s, isSpaceN c = true) :
    strip_decorations s = s := by
  have := SD_ws_prefix s [] hs
  simpa [strip_decorations, removeAll, removeCAD] using this

theorem pyStrip_SD_comm (s : List Nat) :
    pyStrip (strip_decorations (pyStrip s)) = pyStrip (strip_decorations s) := by
  obtain ⟨p, q, hs, hp, hq⟩ := pyStrip_decomp s
  conv_rhs => rw [hs]
  rw [SD_ws_suffix _ q hq, SD_ws_prefix p _ hp, pyStrip_pad p _ q hp hq]

/-- C5 (amended) : parsing an amount string and parsing its
decoration-stripped form give the same outcome whenever one stripping pass
is stable on the string (always the case for comma and dollar decorations;
only interleaved fragments of the currency code can break it). -/
theorem parse_amount_decoration_invariant (s : List Nat)
    (h : strip_decorations (strip_decorations s) = strip_decorations s) :
    parse_amount s = parse_amount (strip_decorations s) := by
  by_cases h1 : (pyStrip s).isEmpty
  · have hws := pyStrip_empty_allws s (List.isEmpty_iff.mp h1)
    rw [SD_allws s hws]
  · by_cases h2 : (pyStrip (strip_decorations s)).isEmpty
    · unfold parse_amount
      rw [if_neg (by simpa using h1), if_pos h2]
      rw [pyStrip_SD_comm s, List.isEmpty_iff.mp h2]
      rfl
    · unfold parse_amount
      rw [if_neg (by simpa using h1), if_neg (by simpa using h2)]
      rw [pyStrip_SD_comm s, pyStrip_SD_comm (strip_decorations s), h]

/-- Witness for the amended C5 theorem: a decorated amount
`"$1,234.50 CAD"` parses to the same value as its stripped form. -/
theorem parse_amount_decoration_invariant_witness :
    strip_decorations (strip_decorations (strToL "$1,234.50 CAD"))
        = strip_decorations (strToL "$1,234.50 CAD")
    ∧ parse_amount (strToL "$1,234.50 CAD")
        = parse_amount (strip_decorations (strToL "$1,234.50 CAD")) :=
  ⟨by decide, parse_amount_decoration_invariant (strToL "$1,234.50 CAD") (by decide)⟩

/-- C5 counterexample: `"1CACADD"` contains the currency code `"CAD"`, but
parsing it gives `None` while parsing its symbol-stripped form `"1CAD"`
gives `1.0`: a single `replace("CAD", "")` pass leaves a reassembled
`"CAD"` behind, so parse results are not invariant under decoration
stripping. -/
theorem parse_amount_decoration_counterexample :
    containsSub (strToL "CAD") (strToL "1CACADD") = true
    ∧ strip_decorations (strToL "1CACADD") = strToL "1CAD"
    ∧ parse_amount (strToL "1CACADD") = none
    ∧ parse_amount (strip_decorations (strToL "1CACADD")) = some 1 := by
  refine ⟨by decide, by decide, ?_, ?_⟩
  · unfold parse_amount
    rw [if_neg (by decide)]
    have h : pyFloatParts (pyStrip (strip_decorations (pyStrip (strToL "1CACADD")))) = none := by
      decide
    simp [pyFloatQ, h]
  · unfold parse_amount
    rw [if_neg (by decide)]
    have h : pyFloatParts (pyStrip (strip_decorations
        (pyStrip (strip_decorations (strToL "1CACADD"))))) = some (false, 1, 1) := by
      decide
    norm_num [pyFloatQ, h, partsVal]

/-! ## Minor-unit conversion at the import boundary (`ynab_import.py` lines 86-90)

The code computes `int(float(amount_str) * 1000)` where
`amount_str = row["Amount"].strip().replace(",", "")`.  `float` produces
the IEEE-754 binary64 nearest to the decimal literal and `*` rounds once
more, so the result can differ from the exact decimal value times 1000
truncated.  The rounding is modelled exactly on integers (round to
nearest, ties to even, normal range — all amounts here are normal). -/

/-- Fuel-driven binary logarithm (`⌊log₂ n⌋` for `1 ≤ n < 2 ^ fuel`). -/
def log2fuel : Nat → Nat → Nat
  | 0, _ => 0
  | f + 1, n => if n ≤ 1 then 0 else log2fuel f (n / 2) + 1

/-- `⌊log₂ n⌋` for the magnitudes occurring here (below `2 ^ 128`). -/
def nlog2 (n : Nat) : Nat := log2fuel 128 n

/-- `2 ^ e * d ≤ n` for a possibly negative exponent. -/
def pow2le (e : Int) (d n : Nat) : Bool :=
  if 0 ≤ e then decide (2 ^ e.toNat * d ≤ n) else decide (d ≤ 2 ^ (-e).toNat * n)

/-- The binade of `n / d` (for `n, d > 0`): the `e` with
`2 ^ e ≤ n / d < 2 ^ (e + 1)`. -/
def findE (n d : Nat) : Int :=
  let g : Int := (nlog2 n : Int) - (nlog2 d : Int)
  if pow2le (g + 1) d n then g + 1 else if pow2le g d n then g else g - 1

/-- Round `a / b` to the nearest integer, ties to even. -/
def roundDivNE (a b : Nat) : Nat :=
  let q := a / b
  let r := a % b
  if 2 * r < b then q else if b < 2 * r then q + 1 else if q % 2 = 0 then q else q + 1

/-- Round the positive rational `n / d` to the nearest binary64 (ties to
even): returns `(m, e)` denoting `m * 2 ^ (e - 52)` with a 53-bit
significand. -/
def roundFloatPos (n d : Nat) : Nat × Int :=
  let e := findE n d
  if e ≤ 52 then (roundDivNE (n * 2 ^ (52 - e).toNat) d, e)
  else (roundDivNE n (d * 2 ^ (e - 52).toNat), e)

/-- Binary64 multiplication of the double `(m1, e1)` by 1000 (the exact
product, rounded once). -/
def mulDouble1000 (m1 : Nat) (e1 : Int) : Nat × Int :=
  if e1 ≤ 52 then roundFloatPos (m1 * 1000) (2 ^ (52 - e1).toNat)
  else roundFloatPos (m1 * 1000 * 2 ^ (e1 - 52).toNat) 1

/-- `int()` truncation of the positive double `(m, e)`. -/
def truncDouble (m : Nat) (e : Int) : Nat :=
  if 52 ≤ e then m * 2 ^ (e - 52).toNat else m / 2 ^ (52 - e).toNat

/-- Lines 86-88 of `ynab_import.py`:
`amount = int(float(row["Amount"].strip().replace(",", "")) * 1000)`.
The sign is handled on the magnitude: parsing, negation and `int()`
truncation toward zero are all sign-symmetric. -/
def import_minor_units (s : List Nat) : Option Int :=
  (pyFloatParts (removeAll 44 (pyStrip s))).map (fun p =>
    if p.2.1 = 0 then 0
    else
      let d1 := roundFloatPos p.2.1 p.2.2
      let d2 := mulDouble1000 d1.1 d1.2
      let mag : Int := truncDouble d2.1 d2.2
      if p.1 then -mag else mag)

/-- The conversion the spec describes: the exact decimal value denoted by
the string, multiplied by 1000 and truncated toward zero. -/
def spec_minor_units (s : List Nat) : Option Int :=
  (pyFloatParts (removeAll 44 (pyStrip s))).map (fun p =>
    let mag : Int := p.2.1 * 1000 / p.2.2
    if p.1 then -mag else mag)

/-- C8: evaluation of the import-boundary conversion at concrete accepted
Amount strings.  For `"2.01"` the code submits 2009 milliunits and for
`"8.165"` it submits 8164, while the exact decimal-times-1000 truncation
of the claim gives 2010 and 8165 (in Python, `2.01 * 1000` is
`2009.9999999999998` and `8.165 * 1000` is `8164.999999999999`); on
`"-50.00"` both agree at -50000.  So the claimed equality fails on the
code. -/
theorem minor_units_truncation_bug :
    import_minor_units (strToL "2.01") = some 2009
    ∧ spec_minor_units (strToL "2.01") = some 2010
    ∧ import_minor_units (strToL "8.165") = some 8164
    ∧ spec_minor_units (strToL "8.165") = some 8165
    ∧ import_minor_units (strToL "-50.00") = some (-50000)
    ∧ spec_minor_units (strToL "-50.00") = some (-50000) :=
  ⟨by decide, by decide, by decide, by decide, by decide, by decide⟩

/-! ## Field Resolver (`amazon_csv_to_ynab.py` lines 36-46)

`_find_column` builds `keys_lower = {k.strip().lower(): k for k in row}`
(a dict: first-occurrence position, last-writer value), returns
`keys_lower[c.lower()]` for the first alias with an exact hit, and
otherwise scans aliases, then the dict's normalized keys, comparing
space/period-stripped forms by substring containment.  Only the row's
column names matter, so a row is modelled by its key list in order. -/

/-- `k.strip().lower()` — the dict key under which column `k` is filed. -/
def normKey (k : List Nat) : List Nat := lowerL (pyStrip k)

/-- One dict insertion `keys_lower[k.strip().lower()] = k`: updating an
existing key keeps its position, otherwise the pair is appended. -/
def insertKL (m : List (List Nat × List Nat)) (k : List Nat) :
    List (List Nat × List Nat) :=
  if m.any (fun p => decide (p.1 = normKey k)) then
    m.map (fun p => if p.1 = normKey k then (p.1, k) else p)
  else m ++ [(normKey k, k)]

/-- The dict comprehension of line 37. -/
def keys_lower (keys : List (List Nat)) : List (List Nat × List Nat) :=
  keys.foldl insertKL []

/-- Dict lookup by normalized name. -/
def lookupKL (m : List (List Nat × List Nat)) (n : List Nat) : Option (List Nat) :=
  (m.find? (fun p => decide (p.1 = n))).map (fun p => p.2)

/-- `s.replace(" ", "").replace(".", "")` of line 44. -/
def delSpDot (s : List Nat) : List Nat := removeAll 46 (removeAll 32 s)

/-- First non-`none` result of `f` over a list, in order (the early
`return` of the nested loops). -/
def firstSome {α β : Type} (f : α → Option β) : List α → Option β
  | [] => none
  | a :: t =>
    match f a with
    | some b => some b
    | none => firstSome f t

/-- `_find_column` (lines 36-46): exact pass over aliases against the
normalized-key dict, then the partial-match pass comparing the raw alias
(spaces/periods removed) against each normalized dict key
(spaces/periods removed) by substring containment. -/
def find_column (keys cands : List (List Nat)) : Option (List Nat) :=
  match firstSome (fun c => lookupKL (keys_lower keys) (lowerL c)) cands with
  | some v => some v
  | none =>
    firstSome (fun c =>
      ((keys_lower keys).find? (fun p => containsSub (delSpDot c) (delSpDot p.1))).map
        (fun p => p.2))
      cands

/-- Removal of whitespace and punctuation as the claim words it. -/
def stripWsPunct (s : List Nat) : List Nat :=
  s.filter (fun c => decide (isSpaceN c = false ∧ c ≠ 46))

/-- The resolver as the claim describes it: a first pass matching each
alias exactly and case-insensitively against the row's column names, then
a second pass stripping whitespace and punctuation from both alias and
column name and accepting the first column whose normalized form contains
the normalized alias as a substring. -/
def claim_find_column (keys cands : List (List Nat)) : Option (List Nat) :=
  match firstSome (fun c => keys.find? (fun k => decide (lowerL k = lowerL c))) cands with
  | some k => some k
  | none =>
    firstSome (fun c =>
      keys.find? (fun k => containsSub (stripWsPunct c) (stripWsPunct k))) cands

/-- C6 counterexample: for the single column `"xDATEy"` and the single
alias `"DATE"`, the claimed resolution finds the column (after stripping,
`"DATE"` is a substring of `"xDATEy"`, case-insensitively or not), but the
code returns `None`: its second pass lowercases only the column side
(`k.strip().lower()`), never the alias, so `"DATE"` is compared against
`"xdatey"` and misses. -/
theorem find_column_counterexample :
    find_column [strToL "xDATEy"] [strToL "DATE"] = none
    ∧ claim_find_column [strToL "xDATEy"] [strToL "DATE"] = some (strToL "xDATEy")
    ∧ containsSub (stripWsPunct (strToL "DATE"))
        (stripWsPunct (strToL "xDATEy")) = true
    ∧ containsSub (lowerL (stripWsPunct (strToL "DATE")))
        (lowerL (stripWsPunct (strToL "xDATEy"))) = true :=
  ⟨by decide, by decide, by decide, by decide⟩

/-- Closed form of the `keys_lower` dict: normalized keys in
first-occurrence order, each holding the last column name that normalizes
to it. -/
def klSpec : List (List Nat) → List (List Nat × List Nat)
  | [] => []
  | k :: ks =>
    (normKey k, (ks.reverse.find? (fun j => decide (normKey j = normKey k))).getD k)
      :: klSpec (ks.filter (fun j => decide (¬normKey j = normKey k)))
termination_by l => l.length
decreasing_by
  simp only [List.length_cons]
  exact Nat.lt_succ_of_le (List.length_filter_le _ _)

theorem klSpec_keys (l : List (List Nat)) :
    ∀ p ∈ klSpec l, ∃ j ∈ l, p.1 = normKey j := by
  induction l using klSpec.induct with
  | case1 =>
    intro p hp
    simp [klSpec] at hp
  | case2 k ks ih =>
    intro p hp
    simp only [klSpec] at hp
    rcases List.mem_cons.mp hp with rfl | hp2
    · exact ⟨k, by simp, rfl⟩
    · obtain ⟨j, hj, hpj⟩ := ih p hp2
      have hjm := (List.mem_filter.mp hj).1
      exact ⟨j, by simp [hjm], hpj⟩

theorem klSpec_append (ks : List (List Nat)) (k : List Nat) :
    klSpec (ks ++ [k]) = insertKL (klSpec ks) k := by
  induction ks using klSpec.induct with
  | case1 =>
    simp [klSpec, insertKL]
  | case2 j ks2 ih =>
    by_cases hkj : normKey k = normKey j
    · have hfind : (ks2 ++ [k]).reverse.find? (fun x => decide (normKey x = normKey j))
          = some k := by
        rw [List.reverse_append]
        simp [List.find?_cons, hkj]
      have hfilt : (ks2 ++ [k]).filter (fun x => decide (¬normKey x = normKey j))
          = ks2.filter (fun x => decide (¬normKey x = normKey j)) := by
        rw [List.filter_append]
        simp [hkj]
      show klSpec (j :: (ks2 ++ [k])) = insertKL (klSpec (j :: ks2)) k
      simp only [klSpec]
      rw [hfind, hfilt]
      have hcond : (((normKey j,
            (ks2.reverse.find? (fun x => decide (normKey x = normKey j))).getD j)
          :: klSpec (ks2.filter (fun x => decide (¬normKey x = normKey j)))).any
            (fun p => decide (p.1 = normKey k))) = true := by
        simp [hkj]
      rw [insertKL, if_pos hcond]
      simp only [List.map_cons]
      rw [if_pos hkj.symm]
      congr 1
      have hmap : ∀ p ∈ klSpec (ks2.filter (fun x => decide (¬normKey x = normKey j))),
          (fun p => if p.1 = normKey k then (p.1, k) else p) p = id p := by
        intro p hp
        obtain ⟨x, hx, hpx⟩ := klSpec_keys _ p hp
        have hxf := (List.mem_filter.mp hx).2
        have hne : p.1 ≠ normKey k := by
          rw [hpx, hkj]
          simpa using hxf
        simp [hne]
      rw [List.map_congr_left hmap, List.map_id]
    · have hfind : (ks2 ++ [k]).reverse.find? (fun x => decide (normKey x = normKey j))
          = ks2.reverse.find? (fun x => decide (normKey x = normKey j)) := by
        rw [List.reverse_append]
        simp [List.find?_cons, hkj]
      have hfilt : (ks2 ++ [k]).filter (fun x => decide (¬normKey x = normKey j))
          = ks2.filter (fun x => decide (¬normKey x = normKey j)) ++ [k] := by
        rw [List.filter_append]
        simp [hkj]
      show klSpec (j :: (ks2 ++ [k])) = insertKL (klSpec (j :: ks2)) k
      simp only [klSpec]
      rw [hfind, hfilt, ih]
      have hjk : normKey j ≠ normKey k := fun h => hkj h.symm
      have hcons : (((normKey j,
            (ks2.reverse.find? (fun x => decide (normKey x = normKey j))).getD j)
          :: klSpec (ks2.filter (fun x => decide (¬normKey x = normKey j)))).any
            (fun p => decide (p.1 = normKey k)))
          = ((klSpec (ks2.filter (fun x => decide (¬normKey x = normKey j)))).any
            (fun p => decide (p.1 = normKey k))) := by
        rw [List.any_cons]
        simp [hjk]
      by_cases hb : ((klSpec (ks2.filter (fun x => decide (¬normKey x = normKey j)))).any
          (fun p => decide (p.1 = normKey k))) = true
      · rw [insertKL, if_pos hb]
        rw [insertKL, if_pos (by rw [hcons]; exact hb)]
        simp only [List.map_cons]
        rw [if_neg hjk]
      · rw [insertKL, if_neg hb]
        rw [insertKL, if_neg (fun hx => hb (by rw [hcons] at hx; exact hx))]
        simp

theorem find?_filter_of_imp {α : Type} {p q : α → Bool} (xs : List α)
    (h : ∀ a, q a = true → p a = true) :
    (xs.filter p).find? q = xs.find? q := by
  induction xs with
  | nil => rfl
  | cons x xs ih =>
    by_cases hq : q x = true
    · simp [List.filter_cons, h x hq, List.find?_cons, hq]
    · by_cases hp : p x = true
      · simp [List.filter_cons, hp, List.find?_cons, hq, ih]
      · simp [List.filter_cons, hp, List.find?_cons, hq, ih]

theorem keys_lower_eq_klSpec (keys : List (List Nat)) :
    keys_lower keys = klSpec keys := by
  induction keys using List.reverseRecOn with
  | nil => simp [keys_lower, klSpec]
  | append_singleton ks k ih =>
    show List.foldl insertKL [] (ks ++ [k]) = _
    rw [List.foldl_append]
    simp only [List.foldl_cons, List.foldl_nil]
    rw [show List.foldl insertKL [] ks = keys_lower ks from rfl, ih, klSpec_append]

theorem lookupKL_klSpec (l : List (List Nat)) (n : List Nat) :
    lookupKL (klSpec l) n = l.reverse.find? (fun k => decide (normKey k = n)) := by
  induction l using klSpec.induct with
  | case1 => simp [klSpec, lookupKL]
  | case2 k ks ih =>
    rw [show (k :: ks).reverse = ks.reverse ++ [k] from by simp, List.find?_append]
    by_cases hn : normKey k = n
    · subst hn
      have hL : lookupKL (klSpec (k :: ks)) (normKey k)
          = some ((ks.reverse.find? (fun j => decide (normKey j = normKey k))).getD k) := by
        simp only [klSpec, lookupKL]
        rw [List.find?_cons_of_pos _ (by simp)]
        rfl
      rw [hL, List.find?_cons_of_pos _ (by simp)]
      cases hf : ks.reverse.find? (fun j => decide (normKey j = normKey k)) <;>
        simp [hf, Option.or]
    · have hL : lookupKL (klSpec (k :: ks)) n
          = lookupKL (klSpec (ks.filter (fun j => decide (¬normKey j = normKey k)))) n := by
        simp only [klSpec, lookupKL]
        rw [List.find?_cons_of_neg _ (by simpa using hn)]
      rw [hL, ih, List.find?_cons_of_neg _ (by simpa using hn)]
      simp only [List.find?_nil, Option.or_none]
      rw [← List.filter_reverse]
      apply find?_filter_of_imp
      intro a ha
      have ha2 : normKey a = n := by simpa using ha
      have hak : ¬normKey a = normKey k := fun hh => hn (hh.symm.trans ha2)
      simpa using hak

theorem find?_klSpec (l : List (List Nat)) (P : List Nat → Bool) :
    ((klSpec l).find? (fun p => P p.1)).map (fun p => p.2)
      = (l.find? (fun k => P (normKey k))).bind
          (fun k0 => l.reverse.find? (fun k => decide (normKey k = normKey k0))) := by
  induction l using klSpec.induct with
  | case1 => simp [klSpec]
  | case2 k ks ih =>
    by_cases hP : P (normKey k) = true
    · have hL : ((klSpec (k :: ks)).find? (fun p => P p.1)).map (fun p => p.2)
          = some ((ks.reverse.find? (fun j => decide (normKey j = normKey k))).getD k) := by
        simp only [klSpec]
        rw [List.find?_cons_of_pos _ (by simpa using hP)]
        rfl
      rw [hL, List.find?_cons_of_pos _ (by simpa using hP)]
      simp only [Option.some_bind]
      rw [show (k :: ks).reverse = ks.reverse ++ [k] from by simp, List.find?_append,
        List.find?_cons_of_pos _ (by simp)]
      cases hf : ks.reverse.find? (fun j => decide (normKey j = normKey k)) <;>
        simp [hf, Option.or]
    · have hL : ((klSpec (k :: ks)).find? (fun p => P p.1)).map (fun p => p.2)
          = ((klSpec (ks.filter (fun j => decide (¬normKey j = normKey k)))).find?
              (fun p => P p.1)).map (fun p => p.2) := by
        simp only [klSpec]
        rw [List.find?_cons_of_neg _ (by simpa using hP)]
      rw [hL, ih, List.find?_cons_of_neg _ (by simpa using hP)]
      have hfd : (ks.filter (fun j => decide (¬normKey j = normKey k))).find?
          (fun j => P (normKey j)) = ks.find? (fun j => P (normKey j)) := by
        apply find?_filter_of_imp
        intro a ha
        have hak : ¬normKey a = normKey k := fun hh => by
          rw [hh] at ha
          exact hP ha
        simpa using hak
      rw [hfd]
      cases hf : ks.find? (fun j => P (normKey j)) with
      | none => rfl
      | some k0 =>
        have hPk0g := List.find?_some hf
        have hPk0 : P (normKey k0) = true := hPk0g
        have hk0k : ¬normKey k0 = normKey k := fun hh => by
          rw [hh] at hPk0
          exact hP hPk0
        simp only [Option.some_bind]
        rw [show (k :: ks).reverse = ks.reverse ++ [k] from by simp, List.find?_append,
          List.find?_cons_of_neg _ (by simpa using fun hh => hk0k hh.symm)]
        simp only [List.find?_nil, Option.or_none]
        rw [← List.filter_reverse]
        apply find?_filter_of_imp
        intro a ha
        have ha2 : normKey a = normKey k0 := by simpa using ha
        have hak : ¬normKey a = normKey k := fun hh => hk0k (hh ▸ ha2).symm
        simpa using hak

/-- The resolver as the code actually behaves, stated declaratively
(the amended claim): pass one returns, for the first alias whose
lowercased form equals the stripped-and-lowercased form of some column
name, the most recently seen such column; only if no alias matches does
pass two scan aliases in order and, for the first alias whose raw form
with spaces and periods removed is a substring of some column's
stripped-lowercased form with spaces and periods removed, return the most
recent column sharing the normalized name of the first such column;
`none` only when both passes fail. -/
def amended_find_column (keys cands : List (List Nat)) : Option (List Nat) :=
  match firstSome (fun c =>
      keys.reverse.find? (fun k => decide (normKey k = lowerL c))) cands with
  | some v => some v
  | none =>
    firstSome (fun c =>
      (keys.find? (fun k => containsSub (delSpDot c) (delSpDot (normKey k)))).bind
        (fun k0 => keys.reverse.find? (fun k => decide (normKey k = normKey k0))))
      cands

/-- C6 (amended): the column resolver equals its declarative description:
an exact pass on stripped-lowercased column names against lowercased
aliases (most recent column wins a collision), then an alias-major
substring pass comparing the space/period-stripped raw alias with the
space/period-stripped normalized column names. -/
theorem find_column_amended (keys cands : List (List Nat)) :
    find_column keys cands = amended_find_column keys cands := by
  unfold find_column amended_find_column
  rw [keys_lower_eq_klSpec]
  have h1 : (fun c => lookupKL (klSpec keys) (lowerL c))
      = (fun c => keys.reverse.find? (fun k => decide (normKey k = lowerL c))) :=
    funext fun c => lookupKL_klSpec keys (lowerL c)
  have h2 : (fun c => ((klSpec keys).find?
        (fun p => containsSub (delSpDot c) (delSpDot p.1))).map (fun p => p.2))
      = (fun c =>
          (keys.find? (fun k => containsSub (delSpDot c) (delSpDot (normKey k)))).bind
            (fun k0 => keys.reverse.find? (fun k => decide (normKey k = normKey k0)))) :=
    funext fun c => find?_klSpec keys (fun n => containsSub (delSpDot c) (delSpDot n))
  rw [h1, h2]

/-! ## Value Normalizer: dates (`amazon_csv_to_ynab.py` lines 49-65)

`_parse_date` strips the input, tries seven explicit `strptime` formats in
order, and falls back to two regular-expression searches.  The CPython
`_strptime` regexes are modelled token by token: `%Y` is exactly four
digits; `%m` is the alternation `1[0-2]|0[1-9]|[1-9]` and `%d` the
alternation `3[01]|[12]\d|0[1-9]|[1-9]`, both with the regex engine's
left-to-right backtracking (candidate lists in alternation order);
whitespace in a format matches one or more whitespace characters; month
names are matched case-insensitively from the C-locale tables sorted
longest-first (no name is a prefix of another, so at most one matches at a
position and a single-result matcher is faithful).  A full regex match is
found first; the trailing-garbage check and `datetime` range validation
happen afterwards and do not re-enter the regex (`finishStrptime`).
`strftime("%Y-%m-%d")` zero-pads month and day; the year is printed
unpadded as glibc does (`renderY`). -/

def parse4Y : List Nat → Option (Nat × List Nat)
  | a :: b :: c :: d :: r =>
    if 48 ≤ a ∧ a ≤ 57 ∧ 48 ≤ b ∧ b ≤ 57 ∧ 48 ≤ c ∧ c ≤ 57 ∧ 48 ≤ d ∧ d ≤ 57 then
      some ((((a - 48) * 10 + (b - 48)) * 10 + (c - 48)) * 10 + (d - 48), r)
    else none
  | _ => none

def lit (c : Nat) : List Nat → Option (List Nat)
  | x :: r => if x = c then some r else none
  | [] => none

def spaces1 : List Nat → Option (List Nat)
  | x :: r => if isSpaceN x then some (r.dropWhile isSpaceN) else none
  | [] => none

def monthCands : List Nat → List (Nat × List Nat)
  | c1 :: rest1 =>
    (match rest1 with
     | c2 :: rest2 =>
       (if c1 = 49 ∧ 48 ≤ c2 ∧ c2 ≤ 50 then [(10 + (c2 - 48), rest2)] else [])
         ++ (if c1 = 48 ∧ 49 ≤ c2 ∧ c2 ≤ 57 then [(c2 - 48, rest2)] else [])
     | [] => [])
      ++ (if 49 ≤ c1 ∧ c1 ≤ 57 then [(c1 - 48, rest1)] else [])
  | [] => []

def dayCands : List Nat → List (Nat × List Nat)
  | c1 :: rest1 =>
    (match rest1 with
     | c2 :: rest2 =>
       (if c1 = 51 ∧ (c2 = 48 ∨ c2 = 49) then [(30 + (c2 - 48), rest2)] else [])
         ++ (if (c1 = 49 ∨ c1 = 50) ∧ 48 ≤ c2 ∧ c2 ≤ 57 then
              [((c1 - 48) * 10 + (c2 - 48), rest2)] else [])
         ++ (if c1 = 48 ∧ 49 ≤ c2 ∧ c2 ≤ 57 then [(c2 - 48, rest2)] else [])
     | [] => [])
      ++ (if 49 ≤ c1 ∧ c1 ≤ 57 then [(c1 - 48, rest1)] else [])
  | [] => []

def tryCands {α β : Type} (cands : List (α × List Nat)) (f : α → List Nat → Option β) :
    Option β :=
  match cands with
  | [] => none
  | (v, r) :: t =>
    match f v r with
    | some b => some b
    | none => tryCands t f

def matchName : List Nat → List Nat → Option (List Nat)
  | [], s => some s
  | _ :: _, [] => none
  | p :: ps, c :: cs => if toLowerN c = p then matchName ps cs else none

def monthAbbrs : List (List Nat × Nat) :=
  [([106, 97, 110], 1), ([102, 101, 98], 2), ([109, 97, 114], 3), ([97, 112, 114], 4),
   ([109, 97, 121], 5), ([106, 117, 110], 6), ([106, 117, 108], 7), ([97, 117, 103], 8),
   ([115, 101, 112], 9), ([111, 99, 116], 10), ([110, 111, 118], 11), ([100, 101, 99], 12)]

def monthFulls : List (List Nat × Nat) :=
  [([115, 101, 112, 116, 101, 109, 98, 101, 114], 9), ([102, 101, 98, 114, 117, 97, 114, 121], 2),
   ([110, 111, 118, 101, 109, 98, 101, 114], 11), ([100, 101, 99, 101, 109, 98, 101, 114], 12),
   ([106, 97, 110, 117, 97, 114, 121], 1), ([111, 99, 116, 111, 98, 101, 114], 10),
   ([97, 117, 103, 117, 115, 116], 8), ([109, 97, 114, 99, 104], 3), ([97, 112, 114, 105, 108], 4),
   ([106, 117, 110, 101], 6), ([106, 117, 108, 121], 7), ([109, 97, 121], 5)]

def findMonthName (names : List (List Nat × Nat)) (s : List Nat) : Option (Nat × List Nat) :=
  match names with
  | [] => none
  | (nm, v) :: t =>
    match matchName nm s with
    | some r => some (v, r)
    | none => findMonthName t s

def validYMD (y m d : Nat) : Bool :=
  decide (1 ≤ y ∧ y ≤ 9999 ∧ 1 ≤ m ∧ m ≤ 12 ∧ 1 ≤ d ∧ d ≤ days_in_month y m)

def finishStrptime (r : Option ((Nat × Nat × Nat) × List Nat)) : Option (Nat × Nat × Nat) :=
  match r with
  | some (ymd, rest) =>
    if rest = [] ∧ validYMD ymd.1 ymd.2.1 ymd.2.2 = true then some ymd else none
  | none => none

def regexISO (s : List Nat) : Option ((Nat × Nat × Nat) × List Nat) :=
  (parse4Y s).bind (fun yr =>
    (lit 45 yr.2).bind (fun r2 =>
      tryCands (monthCands r2) (fun m r3 =>
        (lit 45 r3).bind (fun r4 =>
          tryCands (dayCands r4) (fun d r5 =>
            some ((yr.1, m, d), r5))))))

def strptimeISO (s : List Nat) : Option (Nat × Nat × Nat) := finishStrptime (regexISO s)

def regexUS (s : List Nat) : Option ((Nat × Nat × Nat) × List Nat) :=
  tryCands (monthCands s) (fun m r1 =>
    (lit 47 r1).bind (fun r2 =>
      tryCands (dayCands r2) (fun d r3 =>
        (lit 47 r3).bind (fun r4 =>
          (parse4Y r4).map (fun yr => ((yr.1, m, d), yr.2))))))

def strptimeUS (s : List Nat) : Option (Nat × Nat × Nat) := finishStrptime (regexUS s)

def regexDMY (s : List Nat) : Option ((Nat × Nat × Nat) × List Nat) :=
  tryCands (dayCands s) (fun d r1 =>
    (lit 47 r1).bind (fun r2 =>
      tryCands (monthCands r2) (fun m r3 =>
        (lit 47 r3).bind (fun r4 =>
          (parse4Y r4).map (fun yr => ((yr.1, m, d), yr.2))))))

def strptimeDMY (s : List Nat) : Option (Nat × Nat × Nat) := finishStrptime (regexDMY s)

def regexNameDY (names : List (List Nat × Nat)) (s : List Nat) :
    Option ((Nat × Nat × Nat) × List Nat) :=
  (findMonthName names s).bind (fun mr =>
    (spaces1 mr.2).bind (fun r2 =>
      tryCands (dayCands r2) (fun d r3 =>
        (lit 44 r3).bind (fun r4 =>
          (spaces1 r4).bind (fun r5 =>
            (parse4Y r5).map (fun yr => ((yr.1, mr.1, d), yr.2)))))))

def strptimeBdY (s : List Nat) : Option (Nat × Nat × Nat) :=
  finishStrptime (regexNameDY monthAbbrs s)

def strptimeBBdY (s : List Nat) : Option (Nat × Nat × Nat) :=
  finishStrptime (regexNameDY monthFulls s)

def regexDNameY (names : List (List Nat × Nat)) (s : List Nat) :
    Option ((Nat × Nat × Nat) × List Nat) :=
  tryCands (dayCands s) (fun d r1 =>
    (spaces1 r1).bind (fun r2 =>
      (findMonthName names r2).bind (fun mr =>
        (spaces1 mr.2).bind (fun r4 =>
          (parse4Y r4).map (fun yr => ((yr.1, mr.1, d), yr.2))))))

def strptimeDbY (s : List Nat) : Option (Nat × Nat × Nat) :=
  finishStrptime (regexDNameY monthAbbrs s)

def strptimeDBY (s : List Nat) : Option (Nat × Nat × Nat) :=
  finishStrptime (regexDNameY monthFulls s)

def pad2 (n : Nat) : List Nat := [48 + n / 10, 48 + n % 10]
def pad4 (n : Nat) : List Nat :=
  [48 + n / 1000, 48 + n / 100 % 10, 48 + n / 10 % 10, 48 + n % 10]
def renderY (y : Nat) : List Nat :=
  if y < 10 then [48 + y]
  else if y < 100 then [48 + y / 10, 48 + y % 10]
  else if y < 1000 then [48 + y / 100, 48 + y / 10 % 10, 48 + y % 10]
  else pad4 y
def renderDate (y m d : Nat) : List Nat := renderY y ++ [45] ++ pad2 m ++ [45] ++ pad2 d
def renderISO (y m d : Nat) : List Nat := pad4 y ++ [45] ++ pad2 m ++ [45] ++ pad2 d

def matchISOpat : List Nat → Option (List Nat)
  | a :: b :: c :: d :: e :: f :: g :: h :: i :: j :: _ =>
    if 48 ≤ a ∧ a ≤ 57 ∧ 48 ≤ b ∧ b ≤ 57 ∧ 48 ≤ c ∧ c ≤ 57 ∧ 48 ≤ d ∧ d ≤ 57
        ∧ e = 45 ∧ 48 ≤ f ∧ f ≤ 57 ∧ 48 ≤ g ∧ g ≤ 57 ∧ h = 45
        ∧ 48 ≤ i ∧ i ≤ 57 ∧ 48 ≤ j ∧ j ≤ 57 then
      some [a, b, c, d, 45, f, g, 45, i, j]
    else none
  | _ => none

def searchISOpat : List Nat → Option (List Nat)
  | [] => none
  | c :: t =>
    match matchISOpat (c :: t) with
    | some res => some res
    | none => searchISOpat t

def d12Cands : List Nat → List (List Nat × List Nat)
  | a :: b :: r =>
    if 48 ≤ a ∧ a ≤ 57 then
      (if 48 ≤ b ∧ b ≤ 57 then [([a, b], r), ([a], b :: r)] else [([a], b :: r)])
    else []
  | [a] => if 48 ≤ a ∧ a ≤ 57 then [([a], [])] else []
  | [] => []

def zfill2 (g : List Nat) : List Nat := if g.length = 1 then 48 :: g else g

def matchUSpat (s : List Nat) : Option (List Nat) :=
  tryCands (d12Cands s) (fun g1 r1 =>
    (lit 47 r1).bind (fun r2 =>
      tryCands (d12Cands r2) (fun g2 r3 =>
        (lit 47 r3).bind (fun r4 =>
          match r4 with
          | a :: b :: c :: d :: _ =>
            if 48 ≤ a ∧ a ≤ 57 ∧ 48 ≤ b ∧ b ≤ 57 ∧ 48 ≤ c ∧ c ≤ 57 ∧ 48 ≤ d ∧ d ≤ 57 then
              some ([a, b, c, d] ++ [45] ++ zfill2 g1 ++ [45] ++ zfill2 g2)
            else none
          | _ => none))))

def searchUSpat : List Nat → Option (List Nat)
  | [] => none
  | c :: t =>
    match matchUSpat (c :: t) with
    | some res => some res
    | none => searchUSpat t

def parse_date (s : List Nat) : Option (List Nat) :=
  let t := pyStrip s
  if t = [] then none
  else
    match strptimeISO t with
    | some ymd => some (renderDate ymd.1 ymd.2.1 ymd.2.2)
    | none =>
      match strptimeUS t with
      | some ymd => some (renderDate ymd.1 ymd.2.1 ymd.2.2)
      | none =>
        match strptimeDMY t with
        | some ymd => some (renderDate ymd.1 ymd.2.1 ymd.2.2)
        | none =>
          match strptimeBdY t with
          | some ymd => some (renderDate ymd.1 ymd.2.1 ymd.2.2)
          | none =>
            match strptimeBBdY t with
            | some ymd => some (renderDate ymd.1 ymd.2.1 ymd.2.2)
            | none =>
              match strptimeDbY t with
              | some ymd => some (renderDate ymd.1 ymd.2.1 ymd.2.2)
              | none =>
                match strptimeDBY t with
                | some ymd => some (renderDate ymd.1 ymd.2.1 ymd.2.2)
                | none =>
                  match searchISOpat t with
                  | some res => some res
                  | none => searchUSpat t

/-- C7 counterexample: `_parse_date` can return a string that is not a real
calendar date: on `"2024-13-45"` every explicit format fails (month 13
matches no `%m` alternative), but the first regex fallback matches and the
code returns `"2024-13-45"` verbatim — month 13, day 45.  So the output is
not `none`, yet no valid calendar date renders to it. -/
theorem parse_date_invalid_output :
    parse_date (strToL "2024-13-45") = some (strToL "2024-13-45")
    ∧ ¬∃ y m d, validYMD y m d = true ∧ strToL "2024-13-45" = renderDate y m d := by
  constructor
  · decide
  · rintro ⟨y, m, d, hv, he⟩
    have hv2 := of_decide_eq_true hv
    have hy : 1000 ≤ y := by
      by_contra hy
      have : (renderDate y m d).length ≤ 9 := by
        have : (renderY y).length ≤ 3 := by
          unfold renderY
          split
          · simp
          · split
            · simp
            · rw [if_pos (by omega)]
              simp
        simp [renderDate, pad2]
        omega
      rw [← he] at this
      simp [strToL] at this
    have hr : renderY y = pad4 y := by
      unfold renderY
      rw [if_neg (by omega), if_neg (by omega), if_neg (by omega)]
    rw [renderDate, hr] at he
    have he2 : strToL "2024-13-45"
        = [48 + y / 1000, 48 + y / 100 % 10, 48 + y / 10 % 10, 48 + y % 10, 45,
            48 + m / 10, 48 + m % 10, 45, 48 + d / 10, 48 + d % 10] := by
      rw [he]
      simp [pad4, pad2]
    have hm : m = 13 := by
      have h1 : (49 : Nat) = 48 + m / 10 := by
        have := congrArg (fun l => l.get? 5) he2
        simpa [strToL] using this
      have h2 : (51 : Nat) = 48 + m % 10 := by
        have := congrArg (fun l => l.get? 6) he2
        simpa [strToL] using this
      omega
    omega

/-- `MM/DD/YYYY` rendering of a date (zero-padded). -/
def renderUS (m d y : Nat) : List Nat := pad2 m ++ [47] ++ pad2 d ++ [47] ++ pad4 y

/-- `DD/MM/YYYY` rendering of a date (zero-padded). -/
def renderDMY (d m y : Nat) : List Nat := pad2 d ++ [47] ++ pad2 m ++ [47] ++ pad4 y

/-- Capitalized C-locale month abbreviation. -/
def monthAbbrCap : Nat → List Nat
  | 1 => [74, 97, 110]
  | 2 => [70, 101, 98]
  | 3 => [77, 97, 114]
  | 4 => [65, 112, 114]
  | 5 => [77, 97, 121]
  | 6 => [74, 117, 110]
  | 7 => [74, 117, 108]
  | 8 => [65, 117, 103]
  | 9 => [83, 101, 112]
  | 10 => [79, 99, 116]
  | 11 => [78, 111, 118]
  | 12 => [68, 101, 99]
  | _ => []

/-- Capitalized C-locale full month name. -/
def monthFullCap : Nat → List Nat
  | 1 => [74, 97, 110, 117, 97, 114, 121]
  | 2 => [70, 101, 98, 114, 117, 97, 114, 121]
  | 3 => [77, 97, 114, 99, 104]
  | 4 => [65, 112, 114, 105, 108]
  | 5 => [77, 97, 121]
  | 6 => [74, 117, 110, 101]
  | 7 => [74, 117, 108, 121]
  | 8 => [65, 117, 103, 117, 115, 116]
  | 9 => [83, 101, 112, 116, 101, 109, 98, 101, 114]
  | 10 => [79, 99, 116, 111, 98, 101, 114]
  | 11 => [78, 111, 118, 101, 109, 98, 101, 114]
  | 12 => [68, 101, 99, 101, 109, 98, 101, 114]
  | _ => []

/-- `"Mon DD, YYYY"` rendering. -/
def renderBdY (m d y : Nat) : List Nat :=
  monthAbbrCap m ++ [32] ++ pad2 d ++ [44, 32] ++ pad4 y

/-- `"Month DD, YYYY"` rendering. -/
def renderBBdY (m d y : Nat) : List Nat :=
  monthFullCap m ++ [32] ++ pad2 d ++ [44, 32] ++ pad4 y

/-- `"DD Mon YYYY"` rendering. -/
def renderDbY (d m y : Nat) : List Nat :=
  pad2 d ++ [32] ++ monthAbbrCap m ++ [32] ++ pad4 y

/-- `"DD Month YYYY"` rendering. -/
def renderDBY (d m y : Nat) : List Nat :=
  pad2 d ++ [32] ++ monthFullCap m ++ [32] ++ pad4 y

/-- C4 counterexample: the day-first string `"05/03/2024"` (the `DD/MM/YYYY`
rendering of 5 March 2024) is parsed by the earlier `%m/%d/%Y` format, so
the code returns `"2024-05-03"` — May 3 — and not the canonical rendering
`"2024-03-05"` of the date the string denotes.  Normalization is therefore
not format-independent on day-first strings with day at most 12. -/
theorem parse_date_dayfirst_counterexample :
    renderDMY 5 3 2024 = strToL "05/03/2024"
    ∧ parse_date (renderDMY 5 3 2024) = some (strToL "2024-05-03")
    ∧ strToL "2024-05-03" ≠ renderISO 2024 3 5
    ∧ renderISO 2024 3 5 = strToL "2024-03-05" :=
  ⟨by decide, by decide, by decide, by decide⟩

theorem days_in_month_le (y m : Nat) : days_in_month y m ≤ 31 := by
  unfold days_in_month
  split
  · split <;> omega
  · split <;> omega

theorem isSpaceN_digit {n : Nat} (h : 48 ≤ n) : isSpaceN n = false := by
  simp only [isSpaceN, decide_eq_false_iff_not]
  omega

theorem dropWhile_cons_nonws (c : Nat) (r : List Nat) (h : isSpaceN c = false) :
    (c :: r).dropWhile isSpaceN = c :: r := by
  simp [List.dropWhile_cons, h]

theorem rstrip_append_nonws (x : List Nat) (c : Nat) (h : isSpaceN c = false) :
    rstrip (x ++ [c]) = x ++ [c] := by
  unfold rstrip
  rw [List.reverse_append]
  simp only [List.reverse_cons, List.reverse_nil, List.nil_append, List.singleton_append]
  rw [dropWhile_cons_nonws c x.reverse h]
  simp

theorem pyStrip_fix2 (c0 : Nat) (mid : List Nat) (cl : Nat)
    (h0 : isSpaceN c0 = false) (hl : isSpaceN cl = false) :
    pyStrip (c0 :: (mid ++ [cl])) = c0 :: (mid ++ [cl]) := by
  unfold pyStrip
  rw [show lstrip (c0 :: (mid ++ [cl])) = c0 :: (mid ++ [cl]) from
    dropWhile_cons_nonws c0 (mid ++ [cl]) h0]
  rw [show c0 :: (mid ++ [cl]) = (c0 :: mid) ++ [cl] from by simp]
  exact rstrip_append_nonws (c0 :: mid) cl hl

theorem parse4Y_pad4 (y : Nat) (r : List Nat) (h : y ≤ 9999) :
    parse4Y (pad4 y ++ r) = some (y, r) := by
  simp only [pad4, List.cons_append, List.nil_append, parse4Y]
  rw [if_pos (by omega)]
  have hv : (((48 + y / 1000 - 48) * 10 + (48 + y / 100 % 10 - 48)) * 10
      + (48 + y / 10 % 10 - 48)) * 10 + (48 + y % 10 - 48) = y := by omega
  rw [hv]

theorem parse4Y_nonDigit1 (a : Nat) (r : List Nat) (h : isDigitN a = false) :
    parse4Y (a :: r) = none := by
  have ha : ¬(48 ≤ a ∧ a ≤ 57) := by
    simp only [isDigitN, decide_eq_false_iff_not] at h
    exact h
  match r with
  | [] => rfl
  | [b] => rfl
  | [b, c] => rfl
  | b :: c :: d :: r2 =>
    simp only [parse4Y]
    rw [if_neg (fun hcon => ha ⟨hcon.1, hcon.2.1⟩)]

theorem parse4Y_nonDigit3 (a b c : Nat) (r : List Nat) (h : isDigitN c = false) :
    parse4Y (a :: b :: c :: r) = none := by
  have hc : ¬(48 ≤ c ∧ c ≤ 57) := by
    simp only [isDigitN, decide_eq_false_iff_not] at h
    exact h
  match r with
  | [] => rfl
  | d :: r2 =>
    simp only [parse4Y]
    rw [if_neg (fun hcon => hc ⟨hcon.2.2.2.2.1, hcon.2.2.2.2.2.1⟩)]

theorem lit_cons_eq (c : Nat) (r : List Nat) : lit c (c :: r) = some r := by
  simp [lit]

theorem lit_cons_ne (c x : Nat) (r : List Nat) (h : x ≠ c) : lit c (x :: r) = none := by
  simp [lit, h]

theorem spaces1_cons (r : List Nat) : spaces1 (32 :: r) = some (r.dropWhile isSpaceN) := by
  simp [spaces1, isSpaceN]

theorem spaces1_nonws (c : Nat) (r : List Nat) (h : isSpaceN c = false) :
    spaces1 (c :: r) = none := by
  simp [spaces1, h]

theorem tryCands_cons_some {α β : Type} (v : α) (r : List Nat) (tl : List (α × List Nat))
    (f : α → List Nat → Option β) (b : β) (h : f v r = some b) :
    tryCands ((v, r) :: tl) f = some b := by
  simp [tryCands, h]

theorem tryCands_cons_none {α β : Type} (v : α) (r : List Nat) (tl : List (α × List Nat))
    (f : α → List Nat → Option β) (h : f v r = none) :
    tryCands ((v, r) :: tl) f = tryCands tl f := by
  simp [tryCands, h]

/-- Month-token alternatives after the direct two-digit reading. -/
def monthTail (m : Nat) (r : List Nat) : List (Nat × List Nat) :=
  if m ≤ 9 then [] else [(1, (48 + m % 10) :: r)]

theorem monthCands_pad2 (m : Nat) (r : List Nat) (h1 : 1 ≤ m) (h2 : m ≤ 12) :
    monthCands (pad2 m ++ r) = (m, r) :: monthTail m r := by
  interval_cases m <;> simp [monthCands, pad2, monthTail]

/-- Day-token alternatives after the direct two-digit reading. -/
def dayTail (d : Nat) (r : List Nat) : List (Nat × List Nat) :=
  if d ≤ 9 then [] else [(d / 10, (48 + d % 10) :: r)]

theorem dayCands_pad2 (d : Nat) (r : List Nat) (h1 : 1 ≤ d) (h2 : d ≤ 31) :
    dayCands (pad2 d ++ r) = (d, r) :: dayTail d r := by
  interval_cases d <;> simp [dayCands, pad2, dayTail]

theorem monthCands_pad2_ge13 (d : Nat) (r : List Nat) (h1 : 13 ≤ d) (h2 : d ≤ 31) :
    monthCands (pad2 d ++ r) = [(d / 10, (48 + d % 10) :: r)] := by
  interval_cases d <;> simp [monthCands, pad2]

theorem monthCands_nonDigit (c : Nat) (r : List Nat) (h : isDigitN c = false) :
    monthCands (c :: r) = [] := by
  have hc : c < 48 ∨ 57 < c := by
    simp only [isDigitN, decide_eq_false_iff_not] at h
    omega
  cases r with
  | nil =>
    simp only [monthCands]
    rw [if_neg (by omega)]
    simp
  | cons b t =>
    simp only [monthCands]
    rw [if_neg (by omega), if_neg (by omega), if_neg (by omega)]
    simp

theorem dayCands_nonDigit (c : Nat) (r : List Nat) (h : isDigitN c = false) :
    dayCands (c :: r) = [] := by
  have hc : c < 48 ∨ 57 < c := by
    simp only [isDigitN, decide_eq_false_iff_not] at h
    omega
  cases r with
  | nil =>
    simp only [dayCands]
    rw [if_neg (by omega)]
    simp
  | cons b t =>
    simp only [dayCands]
    rw [if_neg (by omega), if_neg (by omega), if_neg (by omega), if_neg (by omega)]
    simp

theorem renderY_eq_pad4 (y : Nat) (h : 1000 ≤ y) : renderY y = pad4 y := by
  unfold renderY
  rw [if_neg (by omega), if_neg (by omega), if_neg (by omega)]

theorem renderDate_eq_renderISO (y m d : Nat) (h : 1000 ≤ y) :
    renderDate y m d = renderISO y m d := by
  unfold renderDate renderISO
  rw [renderY_eq_pad4 y h]

theorem matchName_ne {p : Nat} {ps : List Nat} {c : Nat} {s : List Nat}
    (h : toLowerN c ≠ p) : matchName (p :: ps) (c :: s) = none := by
  simp [matchName, h]

theorem findMonthName_abbrCap (m : Nat) (r : List Nat) (h1 : 1 ≤ m) (h2 : m ≤ 12) :
    findMonthName monthAbbrs (monthAbbrCap m ++ r) = some (m, r) := by
  interval_cases m <;>
    simp [findMonthName, matchName, monthAbbrs, monthAbbrCap, toLowerN]

theorem findMonthName_fullCap (m : Nat) (r : List Nat) (h1 : 1 ≤ m) (h2 : m ≤ 12) :
    findMonthName monthFulls (monthFullCap m ++ r) = some (m, r) := by
  interval_cases m <;>
    simp [findMonthName, matchName, monthFulls, monthFullCap, toLowerN]

theorem findMonthName_abbrs_digit (c : Nat) (s : List Nat) (h : isDigitN c = true) :
    findMonthName monthAbbrs (c :: s) = none := by
  have hc : 48 ≤ c ∧ c ≤ 57 := by simpa [isDigitN] using h
  have hlow : toLowerN c = c := by
    simp only [toLowerN]
    rw [if_neg (by omega)]
  simp only [findMonthName, monthAbbrs,
    matchName_ne (show toLowerN c ≠ 106 from by rw [hlow]; omega),
    matchName_ne (show toLowerN c ≠ 102 from by rw [hlow]; omega),
    matchName_ne (show toLowerN c ≠ 109 from by rw [hlow]; omega),
    matchName_ne (show toLowerN c ≠ 97 from by rw [hlow]; omega),
    matchName_ne (show toLowerN c ≠ 115 from by rw [hlow]; omega),
    matchName_ne (show toLowerN c ≠ 111 from by rw [hlow]; omega),
    matchName_ne (show toLowerN c ≠ 110 from by rw [hlow]; omega),
    matchName_ne (show toLowerN c ≠ 100 from by rw [hlow]; omega)]

theorem findMonthName_fulls_digit (c : Nat) (s : List Nat) (h : isDigitN c = true) :
    findMonthName monthFulls (c :: s) = none := by
  have hc : 48 ≤ c ∧ c ≤ 57 := by simpa [isDigitN] using h
  have hlow : toLowerN c = c := by
    simp only [toLowerN]
    rw [if_neg (by omega)]
  simp only [findMonthName, monthFulls,
    matchName_ne (show toLowerN c ≠ 106 from by rw [hlow]; omega),
    matchName_ne (show toLowerN c ≠ 102 from by rw [hlow]; omega),
    matchName_ne (show toLowerN c ≠ 109 from by rw [hlow]; omega),
    matchName_ne (show toLowerN c ≠ 97 from by rw [hlow]; omega),
    matchName_ne (show toLowerN c ≠ 115 from by rw [hlow]; omega),
    matchName_ne (show toLowerN c ≠ 111 from by rw [hlow]; omega),
    matchName_ne (show toLowerN c ≠ 110 from by rw [hlow]; omega),
    matchName_ne (show toLowerN c ≠ 100 from by rw [hlow]; omega)]

theorem regexISO_render (y m d : Nat) (hy2 : y ≤ 9999) (hm1 : 1 ≤ m) (hm2 : m ≤ 12)
    (hd1 : 1 ≤ d) (hd31 : d ≤ 31) :
    regexISO (pad4 y ++ (45 :: (pad2 m ++ (45 :: (pad2 d ++ [])))))
      = some ((y, m, d), []) := by
  rw [regexISO, parse4Y_pad4 y _ hy2]
  simp only [Option.some_bind]
  rw [lit_cons_eq]
  simp only [Option.some_bind]
  rw [monthCands_pad2 m _ hm1 hm2]
  apply tryCands_cons_some
  simp only [lit_cons_eq, Option.some_bind]
  rw [dayCands_pad2 d _ hd1 hd31]
  apply tryCands_cons_some
  rfl

theorem regexUS_render (y m d : Nat) (hy2 : y ≤ 9999) (hm1 : 1 ≤ m) (hm2 : m ≤ 12)
    (hd1 : 1 ≤ d) (hd31 : d ≤ 31) :
    regexUS (pad2 m ++ (47 :: (pad2 d ++ (47 :: (pad4 y ++ [])))))
      = some ((y, m, d), []) := by
  rw [regexUS, monthCands_pad2 m _ hm1 hm2]
  apply tryCands_cons_some
  simp only [lit_cons_eq, Option.some_bind]
  rw [dayCands_pad2 d _ hd1 hd31]
  apply tryCands_cons_some
  simp only [lit_cons_eq, Option.some_bind]
  rw [parse4Y_pad4 y _ hy2]
  rfl

theorem regexDMY_render (y m d : Nat) (hy2 : y ≤ 9999) (hm1 : 1 ≤ m) (hm2 : m ≤ 12)
    (hd1 : 1 ≤ d) (hd31 : d ≤ 31) :
    regexDMY (pad2 d ++ (47 :: (pad2 m ++ (47 :: (pad4 y ++ [])))))
      = some ((y, m, d), []) := by
  rw [regexDMY, dayCands_pad2 d _ hd1 hd31]
  apply tryCands_cons_some
  simp only [lit_cons_eq, Option.some_bind]
  rw [monthCands_pad2 m _ hm1 hm2]
  apply tryCands_cons_some
  simp only [lit_cons_eq, Option.some_bind]
  rw [parse4Y_pad4 y _ hy2]
  rfl

theorem regexISO_pad2_sep (x c : Nat) (X : List Nat) (hc : isDigitN c = false) :
    regexISO (pad2 x ++ (c :: X)) = none := by
  rw [show pad2 x ++ (c :: X) = (48 + x / 10) :: (48 + x % 10) :: c :: X from by simp [pad2]]
  rw [regexISO, parse4Y_nonDigit3 _ _ _ _ hc]
  rfl

theorem regexISO_nonDigitHead (c : Nat) (X : List Nat) (hc : isDigitN c = false) :
    regexISO (c :: X) = none := by
  rw [regexISO, parse4Y_nonDigit1 _ _ hc]
  rfl

theorem regexUS_nonDigitHead (c : Nat) (X : List Nat) (hc : isDigitN c = false) :
    regexUS (c :: X) = none := by
  rw [regexUS, monthCands_nonDigit c X hc]
  rfl

theorem regexDMY_nonDigitHead (c : Nat) (X : List Nat) (hc : isDigitN c = false) :
    regexDMY (c :: X) = none := by
  rw [regexDMY, dayCands_nonDigit c X hc]
  rfl

theorem regexUS_nonslash (d c : Nat) (X : List Nat) (h1 : 1 ≤ d) (h2 : d ≤ 31)
    (hc : c ≠ 47) :
    regexUS (pad2 d ++ (c :: X)) = none := by
  by_cases h13 : 13 ≤ d
  · rw [regexUS, monthCands_pad2_ge13 d _ h13 h2,
      tryCands_cons_none _ _ _ _
        (by simp only [lit_cons_ne 47 (48 + d % 10) _ (by omega), Option.none_bind])]
    rfl
  · rw [regexUS, monthCands_pad2 d _ h1 (by omega),
      tryCands_cons_none _ _ _ _
        (by simp only [lit_cons_ne 47 c _ hc, Option.none_bind])]
    unfold monthTail
    by_cases h9 : d ≤ 9
    · rw [if_pos h9]
      rfl
    · rw [if_neg h9,
        tryCands_cons_none _ _ _ _
          (by simp only [lit_cons_ne 47 (48 + d % 10) _ (by omega), Option.none_bind])]
      rfl

theorem regexDMY_nonslash (d c : Nat) (X : List Nat) (h1 : 1 ≤ d) (h2 : d ≤ 31)
    (hc : c ≠ 47) :
    regexDMY (pad2 d ++ (c :: X)) = none := by
  rw [regexDMY, dayCands_pad2 d _ h1 h2,
    tryCands_cons_none _ _ _ _
      (by simp only [lit_cons_ne 47 c _ hc, Option.none_bind])]
  unfold dayTail
  by_cases h9 : d ≤ 9
  · rw [if_pos h9]
    rfl
  · rw [if_neg h9,
      tryCands_cons_none _ _ _ _
        (by simp only [lit_cons_ne 47 (48 + d % 10) _ (by omega), Option.none_bind])]
    rfl

theorem regexNameDY_none_of_name (names : List (List Nat × Nat)) (s : List Nat)
    (h : findMonthName names s = none) : regexNameDY names s = none := by
  rw [regexNameDY, h]
  rfl

theorem finishStrptime_some (y m d : Nat) (hvalid : validYMD y m d = true) :
    finishStrptime (some ((y, m, d), [])) = some (y, m, d) := by
  simp [finishStrptime, hvalid]

theorem validYMD_intro (y m d : Nat) (hy1 : 1 ≤ y) (hy2 : y ≤ 9999) (hm1 : 1 ≤ m)
    (hm2 : m ≤ 12) (hd1 : 1 ≤ d) (hd2 : d ≤ days_in_month y m) :
    validYMD y m d = true := by
  simp only [validYMD, decide_eq_true_eq]
  exact ⟨hy1, hy2, hm1, hm2, hd1, hd2⟩

theorem abbrCap_head (m : Nat) (h1 : 1 ≤ m) (h2 : m ≤ 12) :
    ∃ c t, monthAbbrCap m = c :: t ∧ 65 ≤ c ∧ c ≤ 90 := by
  interval_cases m <;> exact ⟨_, _, rfl, by omega, by omega⟩

theorem fullCap_head (m : Nat) (h1 : 1 ≤ m) (h2 : m ≤ 12) :
    ∃ c t, monthFullCap m = c :: t ∧ 65 ≤ c ∧ c ≤ 90 := by
  interval_cases m <;> exact ⟨_, _, rfl, by omega, by omega⟩

theorem dropWhile_pad2 (n : Nat) (r : List Nat) :
    (pad2 n ++ r).dropWhile isSpaceN = pad2 n ++ r := by
  rw [show pad2 n ++ r = (48 + n / 10) :: ((48 + n % 10) :: r) from by simp [pad2]]
  exact dropWhile_cons_nonws _ _ (isSpaceN_digit (by omega))

theorem dropWhile_pad4 (n : Nat) (r : List Nat) :
    (pad4 n ++ r).dropWhile isSpaceN = pad4 n ++ r := by
  rw [show pad4 n ++ r = (48 + n / 1000)
      :: ([48 + n / 100 % 10, 48 + n / 10 % 10, 48 + n % 10] ++ r) from by simp [pad4]]
  exact dropWhile_cons_nonws _ _ (isSpaceN_digit (by omega))

theorem dropWhile_abbrCap (m : Nat) (r : List Nat) (h1 : 1 ≤ m) (h2 : m ≤ 12) :
    (monthAbbrCap m ++ r).dropWhile isSpaceN = monthAbbrCap m ++ r := by
  obtain ⟨c, t, htbl, hc, _⟩ := abbrCap_head m h1 h2
  rw [htbl, List.cons_append]
  exact dropWhile_cons_nonws _ _ (isSpaceN_digit (by omega))

theorem dropWhile_fullCap (m : Nat) (r : List Nat) (h1 : 1 ≤ m) (h2 : m ≤ 12) :
    (monthFullCap m ++ r).dropWhile isSpaceN = monthFullCap m ++ r := by
  obtain ⟨c, t, htbl, hc, _⟩ := fullCap_head m h1 h2
  rw [htbl, List.cons_append]
  exact dropWhile_cons_nonws _ _ (isSpaceN_digit (by omega))

theorem regexBdY_render (y m d : Nat) (hy2 : y ≤ 9999) (hm1 : 1 ≤ m) (hm2 : m ≤ 12)
    (hd1 : 1 ≤ d) (hd31 : d ≤ 31) :
    regexNameDY monthAbbrs
        (monthAbbrCap m ++ (32 :: (pad2 d ++ (44 :: 32 :: (pad4 y ++ [])))))
      = some ((y, m, d), []) := by
  rw [regexNameDY, findMonthName_abbrCap m _ hm1 hm2]
  simp only [Option.some_bind]
  rw [spaces1_cons]
  simp only [Option.some_bind]
  rw [dropWhile_pad2 d _, dayCands_pad2 d _ hd1 hd31]
  apply tryCands_cons_some
  simp only [lit_cons_eq, Option.some_bind]
  rw [spaces1_cons]
  simp only [Option.some_bind]
  rw [dropWhile_pad4 y _, parse4Y_pad4 y _ hy2]
  rfl

theorem regexBBdY_render (y m d : Nat) (hy2 : y ≤ 9999) (hm1 : 1 ≤ m) (hm2 : m ≤ 12)
    (hd1 : 1 ≤ d) (hd31 : d ≤ 31) :
    regexNameDY monthFulls
        (monthFullCap m ++ (32 :: (pad2 d ++ (44 :: 32 :: (pad4 y ++ [])))))
      = some ((y, m, d), []) := by
  rw [regexNameDY, findMonthName_fullCap m _ hm1 hm2]
  simp only [Option.some_bind]
  rw [spaces1_cons]
  simp only [Option.some_bind]
  rw [dropWhile_pad2 d _, dayCands_pad2 d _ hd1 hd31]
  apply tryCands_cons_some
  simp only [lit_cons_eq, Option.some_bind]
  rw [spaces1_cons]
  simp only [Option.some_bind]
  rw [dropWhile_pad4 y _, parse4Y_pad4 y _ hy2]
  rfl

theorem regexDbY_render (y m d : Nat) (hy2 : y ≤ 9999) (hm1 : 1 ≤ m) (hm2 : m ≤ 12)
    (hd1 : 1 ≤ d) (hd31 : d ≤ 31) :
    regexDNameY monthAbbrs
        (pad2 d ++ (32 :: (monthAbbrCap m ++ (32 :: (pad4 y ++ [])))))
      = some ((y, m, d), []) := by
  rw [regexDNameY, dayCands_pad2 d _ hd1 hd31]
  apply tryCands_cons_some
  simp only [spaces1_cons, Option.some_bind]
  rw [dropWhile_abbrCap m _ hm1 hm2, findMonthName_abbrCap m _ hm1 hm2]
  simp only [Option.some_bind]
  rw [spaces1_cons]
  simp only [Option.some_bind]
  rw [dropWhile_pad4 y _, parse4Y_pad4 y _ hy2]
  rfl

theorem regexDBY_render (y m d : Nat) (hy2 : y ≤ 9999) (hm1 : 1 ≤ m) (hm2 : m ≤ 12)
    (hd1 : 1 ≤ d) (hd31 : d ≤ 31) :
    regexDNameY monthFulls
        (pad2 d ++ (32 :: (monthFullCap m ++ (32 :: (pad4 y ++ [])))))
      = some ((y, m, d), []) := by
  rw [regexDNameY, dayCands_pad2 d _ hd1 hd31]
  apply tryCands_cons_some
  simp only [spaces1_cons, Option.some_bind]
  rw [dropWhile_fullCap m _ hm1 hm2, findMonthName_fullCap m _ hm1 hm2]
  simp only [Option.some_bind]
  rw [spaces1_cons]
  simp only [Option.some_bind]
  rw [dropWhile_pad4 y _, parse4Y_pad4 y _ hy2]
  rfl

/-- What remains of each full month name after its three-letter
abbreviation has been consumed. -/
def fullTail : Nat → List Nat
  | 1 => [117, 97, 114, 121]
  | 2 => [114, 117, 97, 114, 121]
  | 3 => [99, 104]
  | 4 => [105, 108]
  | 5 => []
  | 6 => [101]
  | 7 => [121]
  | 8 => [117, 115, 116]
  | 9 => [116, 101, 109, 98, 101, 114]
  | 10 => [111, 98, 101, 114]
  | 11 => [101, 109, 98, 101, 114]
  | 12 => [101, 109, 98, 101, 114]
  | _ => []

theorem findAbbr_on_full (m : Nat) (X : List Nat) (h1 : 1 ≤ m) (h2 : m ≤ 12) :
    findMonthName monthAbbrs (monthFullCap m ++ X) = some (m, fullTail m ++ X) := by
  interval_cases m <;>
    simp [findMonthName, matchName, monthAbbrs, monthFullCap, fullTail, toLowerN]

theorem fullTail_head (m : Nat) (h1 : 1 ≤ m) (h2 : m ≤ 12) (h5 : m ≠ 5) :
    ∃ c t, fullTail m = c :: t ∧ 97 ≤ c := by
  interval_cases m <;> first
    | exact absurd rfl h5
    | exact ⟨_, _, rfl, by omega⟩

theorem regexNameDY_abbr_on_full (m : Nat) (X : List Nat) (h1 : 1 ≤ m) (h2 : m ≤ 12)
    (h5 : m ≠ 5) :
    regexNameDY monthAbbrs (monthFullCap m ++ X) = none := by
  rw [regexNameDY, findAbbr_on_full m X h1 h2]
  simp only [Option.some_bind]
  obtain ⟨c, t, htl, hc⟩ := fullTail_head m h1 h2 h5
  rw [htl, List.cons_append, spaces1_nonws _ _ (isSpaceN_digit (by omega))]
  rfl

theorem regexDNameY_abbr_on_full (m d : Nat) (X : List Nat) (h1 : 1 ≤ m) (h2 : m ≤ 12)
    (h5 : m ≠ 5) (hd1 : 1 ≤ d) (hd31 : d ≤ 31) :
    regexDNameY monthAbbrs (pad2 d ++ (32 :: (monthFullCap m ++ X))) = none := by
  rw [regexDNameY, dayCands_pad2 d _ hd1 hd31]
  refine (tryCands_cons_none _ _ _ _ ?_).trans ?_
  · simp only [spaces1_cons, Option.some_bind]
    rw [dropWhile_fullCap m X h1 h2, findAbbr_on_full m X h1 h2]
    simp only [Option.some_bind]
    obtain ⟨c, t, htl, hc⟩ := fullTail_head m h1 h2 h5
    rw [htl, List.cons_append, spaces1_nonws _ _ (isSpaceN_digit (by omega))]
    rfl
  · unfold dayTail
    by_cases h9 : d ≤ 9
    · rw [if_pos h9]
      rfl
    · rw [if_neg h9]
      refine (tryCands_cons_none _ _ _ _ ?_).trans rfl
      simp only [spaces1_nonws _ _ (isSpaceN_digit (show 48 ≤ 48 + d % 10 by omega)),
        Option.none_bind]

theorem regexDNameY_nonDigitHead (names : List (List Nat × Nat)) (c : Nat) (X : List Nat)
    (hc : isDigitN c = false) : regexDNameY names (c :: X) = none := by
  rw [regexDNameY, dayCands_nonDigit c X hc]
  rfl

theorem regexUS_pad2ge13 (d : Nat) (X : List Nat) (h13 : 13 ≤ d) (h2 : d ≤ 31) :
    regexUS (pad2 d ++ X) = none := by
  rw [regexUS, monthCands_pad2_ge13 d _ h13 h2]
  refine (tryCands_cons_none _ _ _ _ ?_).trans rfl
  simp only [lit_cons_ne 47 (48 + d % 10) _ (by omega), Option.none_bind]

theorem pyStrip_append_pad4 (c0 : Nat) (mid : List Nat) (y : Nat)
    (h0 : isSpaceN c0 = false) :
    pyStrip ((c0 :: mid) ++ pad4 y) = (c0 :: mid) ++ pad4 y := by
  rw [show (c0 :: mid) ++ pad4 y = c0 :: ((mid
      ++ [48 + y / 1000, 48 + y / 100 % 10, 48 + y / 10 % 10]) ++ [48 + y % 10]) from by
    simp [pad4]]
  exact pyStrip_fix2 _ _ _ h0 (isSpaceN_digit (by omega))

theorem pyStrip_renderISO (y m d : Nat) :
    pyStrip (renderISO y m d) = renderISO y m d := by
  rw [show renderISO y m d = (48 + y / 1000) :: (([48 + y / 100 % 10, 48 + y / 10 % 10,
      48 + y % 10, 45, 48 + m / 10, 48 + m % 10, 45, 48 + d / 10]) ++ [48 + d % 10]) from by
    simp [renderISO, pad4, pad2]]
  exact pyStrip_fix2 _ _ _ (isSpaceN_digit (by omega)) (isSpaceN_digit (by omega))

theorem pyStrip_renderUS (m d y : Nat) :
    pyStrip (renderUS m d y) = renderUS m d y := by
  rw [show renderUS m d y = ((48 + m / 10) :: ([48 + m % 10, 47, 48 + d / 10, 48 + d % 10,
      47])) ++ pad4 y from by simp [renderUS, pad2]]
  exact pyStrip_append_pad4 _ _ y (isSpaceN_digit (by omega))

theorem pyStrip_renderDMY (d m y : Nat) :
    pyStrip (renderDMY d m y) = renderDMY d m y := by
  rw [show renderDMY d m y = ((48 + d / 10) :: ([48 + d % 10, 47, 48 + m / 10, 48 + m % 10,
      47])) ++ pad4 y from by simp [renderDMY, pad2]]
  exact pyStrip_append_pad4 _ _ y (isSpaceN_digit (by omega))

theorem pyStrip_renderBdY (m d y : Nat) (h1 : 1 ≤ m) (h2 : m ≤ 12) :
    pyStrip (renderBdY m d y) = renderBdY m d y := by
  obtain ⟨c, t, htbl, hc, _⟩ := abbrCap_head m h1 h2
  rw [show renderBdY m d y = (c :: (t ++ [32] ++ pad2 d ++ [44, 32])) ++ pad4 y from by
    simp [renderBdY, htbl]]
  exact pyStrip_append_pad4 _ _ y (isSpaceN_digit (by omega))

theorem pyStrip_renderBBdY (m d y : Nat) (h1 : 1 ≤ m) (h2 : m ≤ 12) :
    pyStrip (renderBBdY m d y) = renderBBdY m d y := by
  obtain ⟨c, t, htbl, hc, _⟩ := fullCap_head m h1 h2
  rw [show renderBBdY m d y = (c :: (t ++ [32] ++ pad2 d ++ [44, 32])) ++ pad4 y from by
    simp [renderBBdY, htbl]]
  exact pyStrip_append_pad4 _ _ y (isSpaceN_digit (by omega))

theorem pyStrip_renderDbY (d m y : Nat) :
    pyStrip (renderDbY d m y) = renderDbY d m y := by
  rw [show renderDbY d m y = ((48 + d / 10) :: ([48 + d % 10, 32] ++ monthAbbrCap m
      ++ [32])) ++ pad4 y from by simp [renderDbY, pad2]]
  exact pyStrip_append_pad4 _ _ y (isSpaceN_digit (by omega))

theorem pyStrip_renderDBY (d m y : Nat) :
    pyStrip (renderDBY d m y) = renderDBY d m y := by
  rw [show renderDBY d m y = ((48 + d / 10) :: ([48 + d % 10, 32] ++ monthFullCap m
      ++ [32])) ++ pad4 y from by simp [renderDBY, pad2]]
  exact pyStrip_append_pad4 _ _ y (isSpaceN_digit (by omega))

theorem parse_date_step1 (s : List Nat) (hs : pyStrip s = s) (hne : ¬s = [])
    (ymd : Nat × Nat × Nat) (h1 : strptimeISO s = some ymd) :
    parse_date s = some (renderDate ymd.1 ymd.2.1 ymd.2.2) := by
  unfold parse_date
  simp only [hs]
  rw [if_neg hne, h1]

theorem parse_date_step2 (s : List Nat) (hs : pyStrip s = s) (hne : ¬s = [])
    (h1 : strptimeISO s = none) (ymd : Nat × Nat × Nat)
    (h2 : strptimeUS s = some ymd) :
    parse_date s = some (renderDate ymd.1 ymd.2.1 ymd.2.2) := by
  unfold parse_date
  simp only [hs]
  rw [if_neg hne, h1, h2]

theorem parse_date_step3 (s : List Nat) (hs : pyStrip s = s) (hne : ¬s = [])
    (h1 : strptimeISO s = none) (h2 : strptimeUS s = none) (ymd : Nat × Nat × Nat)
    (h3 : strptimeDMY s = some ymd) :
    parse_date s = some (renderDate ymd.1 ymd.2.1 ymd.2.2) := by
  unfold parse_date
  simp only [hs]
  rw [if_neg hne, h1, h2, h3]

theorem parse_date_step4 (s : List Nat) (hs : pyStrip s = s) (hne : ¬s = [])
    (h1 : strptimeISO s = none) (h2 : strptimeUS s = none) (h3 : strptimeDMY s = none)
    (ymd : Nat × Nat × Nat) (h4 : strptimeBdY s = some ymd) :
    parse_date s = some (renderDate ymd.1 ymd.2.1 ymd.2.2) := by
  unfold parse_date
  simp only [hs]
  rw [if_neg hne, h1, h2, h3, h4]

theorem parse_date_step5 (s : List Nat) (hs : pyStrip s = s) (hne : ¬s = [])
    (h1 : strptimeISO s = none) (h2 : strptimeUS s = none) (h3 : strptimeDMY s = none)
    (h4 : strptimeBdY s = none) (ymd : Nat × Nat × Nat)
    (h5 : strptimeBBdY s = some ymd) :
    parse_date s = some (renderDate ymd.1 ymd.2.1 ymd.2.2) := by
  unfold parse_date
  simp only [hs]
  rw [if_neg hne, h1, h2, h3, h4, h5]

theorem parse_date_step6 (s : List Nat) (hs : pyStrip s = s) (hne : ¬s = [])
    (h1 : strptimeISO s = none) (h2 : strptimeUS s = none) (h3 : strptimeDMY s = none)
    (h4 : strptimeBdY s = none) (h5 : strptimeBBdY s = none) (ymd : Nat × Nat × Nat)
    (h6 : strptimeDbY s = some ymd) :
    parse_date s = some (renderDate ymd.1 ymd.2.1 ymd.2.2) := by
  unfold parse_date
  simp only [hs]
  rw [if_neg hne, h1, h2, h3, h4, h5, h6]

theorem parse_date_step7 (s : List Nat) (hs : pyStrip s = s) (hne : ¬s = [])
    (h1 : strptimeISO s = none) (h2 : strptimeUS s = none) (h3 : strptimeDMY s = none)
    (h4 : strptimeBdY s = none) (h5 : strptimeBBdY s = none) (h6 : strptimeDbY s = none)
    (ymd : Nat × Nat × Nat) (h7 : strptimeDBY s = some ymd) :
    parse_date s = some (renderDate ymd.1 ymd.2.1 ymd.2.2) := by
  unfold parse_date
  simp only [hs]
  rw [if_neg hne, h1, h2, h3, h4, h5, h6, h7]

theorem parse_date_renderISO (y m d : Nat) (hy1 : 1000 ≤ y) (hy2 : y ≤ 9999)
    (hm1 : 1 ≤ m) (hm2 : m ≤ 12) (hd1 : 1 ≤ d) (hd2 : d ≤ days_in_month y m) :
    parse_date (renderISO y m d) = some (renderISO y m d) := by
  have hd31 := le_trans hd2 (days_in_month_le y m)
  have e : renderISO y m d = pad4 y ++ (45 :: (pad2 m ++ (45 :: (pad2 d ++ [])))) := by
    simp [renderISO]
  have h1 : strptimeISO (renderISO y m d) = some (y, m, d) := by
    rw [strptimeISO, e, regexISO_render y m d hy2 hm1 hm2 hd1 hd31]
    exact finishStrptime_some y m d (validYMD_intro y m d (by omega) hy2 hm1 hm2 hd1 hd2)
  have hne : ¬renderISO y m d = [] := by simp [renderISO, pad4]
  rw [parse_date_step1 _ (pyStrip_renderISO y m d) hne _ h1]
  rw [show renderDate (y, m, d).1 (y, m, d).2.1 (y, m, d).2.2 = renderDate y m d from rfl]
  rw [renderDate_eq_renderISO y m d hy1]

theorem parse_date_renderUS (y m d : Nat) (hy1 : 1000 ≤ y) (hy2 : y ≤ 9999)
    (hm1 : 1 ≤ m) (hm2 : m ≤ 12) (hd1 : 1 ≤ d) (hd2 : d ≤ days_in_month y m) :
    parse_date (renderUS m d y) = some (renderISO y m d) := by
  have hd31 := le_trans hd2 (days_in_month_le y m)
  have e : renderUS m d y = pad2 m ++ (47 :: (pad2 d ++ (47 :: (pad4 y ++ [])))) := by
    simp [renderUS]
  have h1 : strptimeISO (renderUS m d y) = none := by
    rw [strptimeISO, e, regexISO_pad2_sep m 47 _ (by decide)]
    rfl
  have h2 : strptimeUS (renderUS m d y) = some (y, m, d) := by
    rw [strptimeUS, e, regexUS_render y m d hy2 hm1 hm2 hd1 hd31]
    exact finishStrptime_some y m d (validYMD_intro y m d (by omega) hy2 hm1 hm2 hd1 hd2)
  have hne : ¬renderUS m d y = [] := by simp [renderUS, pad2]
  rw [parse_date_step2 _ (pyStrip_renderUS m d y) hne h1 _ h2]
  rw [show renderDate (y, m, d).1 (y, m, d).2.1 (y, m, d).2.2 = renderDate y m d from rfl]
  rw [renderDate_eq_renderISO y m d hy1]

theorem parse_date_renderDMY (y m d : Nat) (hy1 : 1000 ≤ y) (hy2 : y ≤ 9999)
    (hm1 : 1 ≤ m) (hm2 : m ≤ 12) (hd13 : 13 ≤ d) (hd2 : d ≤ days_in_month y m) :
    parse_date (renderDMY d m y) = some (renderISO y m d) := by
  have hd31 := le_trans hd2 (days_in_month_le y m)
  have e : renderDMY d m y = pad2 d ++ (47 :: (pad2 m ++ (47 :: (pad4 y ++ [])))) := by
    simp [renderDMY]
  have h1 : strptimeISO (renderDMY d m y) = none := by
    rw [strptimeISO, e, regexISO_pad2_sep d 47 _ (by decide)]
    rfl
  have h2 : strptimeUS (renderDMY d m y) = none := by
    rw [strptimeUS, e, regexUS_pad2ge13 d _ hd13 hd31]
    rfl
  have h3 : strptimeDMY (renderDMY d m y) = some (y, m, d) := by
    rw [strptimeDMY, e, regexDMY_render y m d hy2 hm1 hm2 (by omega) hd31]
    exact finishStrptime_some y m d
      (validYMD_intro y m d (by omega) hy2 hm1 hm2 (by omega) hd2)
  have hne : ¬renderDMY d m y = [] := by simp [renderDMY, pad2]
  rw [parse_date_step3 _ (pyStrip_renderDMY d m y) hne h1 h2 _ h3]
  rw [show renderDate (y, m, d).1 (y, m, d).2.1 (y, m, d).2.2 = renderDate y m d from rfl]
  rw [renderDate_eq_renderISO y m d hy1]

theorem parse_date_renderBdY (y m d : Nat) (hy1 : 1000 ≤ y) (hy2 : y ≤ 9999)
    (hm1 : 1 ≤ m) (hm2 : m ≤ 12) (hd1 : 1 ≤ d) (hd2 : d ≤ days_in_month y m) :
    parse_date (renderBdY m d y) = some (renderISO y m d) := by
  have hd31 := le_trans hd2 (days_in_month_le y m)
  have e : renderBdY m d y
      = monthAbbrCap m ++ (32 :: (pad2 d ++ (44 :: 32 :: (pad4 y ++ [])))) := by
    simp [renderBdY]
  obtain ⟨c, t, htbl, hc1, hc2⟩ := abbrCap_head m hm1 hm2
  have e2 : renderBdY m d y
      = c :: (t ++ (32 :: (pad2 d ++ (44 :: 32 :: (pad4 y ++ []))))) := by
    rw [e, htbl, List.cons_append]
  have hcnd : isDigitN c = false := by
    simp only [isDigitN, decide_eq_false_iff_not]
    omega
  have h1 : strptimeISO (renderBdY m d y) = none := by
    rw [strptimeISO, e2, regexISO_nonDigitHead c _ hcnd]
    rfl
  have h2 : strptimeUS (renderBdY m d y) = none := by
    rw [strptimeUS, e2, regexUS_nonDigitHead c _ hcnd]
    rfl
  have h3 : strptimeDMY (renderBdY m d y) = none := by
    rw [strptimeDMY, e2, regexDMY_nonDigitHead c _ hcnd]
    rfl
  have h4 : strptimeBdY (renderBdY m d y) = some (y, m, d) := by
    rw [strptimeBdY, e, regexBdY_render y m d hy2 hm1 hm2 hd1 hd31]
    exact finishStrptime_some y m d (validYMD_intro y m d (by omega) hy2 hm1 hm2 hd1 hd2)
  have hne : ¬renderBdY m d y = [] := by
    rw [e2]
    simp
  rw [parse_date_step4 _ (pyStrip_renderBdY m d y hm1 hm2) hne h1 h2 h3 _ h4]
  rw [show renderDate (y, m, d).1 (y, m, d).2.1 (y, m, d).2.2 = renderDate y m d from rfl]
  rw [renderDate_eq_renderISO y m d hy1]

theorem parse_date_renderBBdY (y m d : Nat) (hy1 : 1000 ≤ y) (hy2 : y ≤ 9999)
    (hm1 : 1 ≤ m) (hm2 : m ≤ 12) (hd1 : 1 ≤ d) (hd2 : d ≤ days_in_month y m) :
    parse_date (renderBBdY m d y) = some (renderISO y m d) := by
  by_cases h5 : m = 5
  · subst h5
    rw [show renderBBdY 5 d y = renderBdY 5 d y from by
      simp [renderBBdY, renderBdY, monthFullCap, monthAbbrCap]]
    exact parse_date_renderBdY y 5 d hy1 hy2 hm1 hm2 hd1 hd2
  · have hd31 := le_trans hd2 (days_in_month_le y m)
    have e : renderBBdY m d y
        = monthFullCap m ++ (32 :: (pad2 d ++ (44 :: 32 :: (pad4 y ++ [])))) := by
      simp [renderBBdY]
    obtain ⟨c, t, htbl, hc1, hc2⟩ := fullCap_head m hm1 hm2
    have e2 : renderBBdY m d y
        = c :: (t ++ (32 :: (pad2 d ++ (44 :: 32 :: (pad4 y ++ []))))) := by
      rw [e, htbl, List.cons_append]
    have hcnd : isDigitN c = false := by
      simp only [isDigitN, decide_eq_false_iff_not]
      omega
    have h1 : strptimeISO (renderBBdY m d y) = none := by
      rw [strptimeISO, e2, regexISO_nonDigitHead c _ hcnd]
      rfl
    have h2 : strptimeUS (renderBBdY m d y) = none := by
      rw [strptimeUS, e2, regexUS_nonDigitHead c _ hcnd]
      rfl
    have h3 : strptimeDMY (renderBBdY m d y) = none := by
      rw [strptimeDMY, e2, regexDMY_nonDigitHead c _ hcnd]
      rfl
    have h4 : strptimeBdY (renderBBdY m d y) = none := by
      rw [strptimeBdY, e, regexNameDY_abbr_on_full m _ hm1 hm2 h5]
      rfl
    have h5p : strptimeBBdY (renderBBdY m d y) = some (y, m, d) := by
      rw [strptimeBBdY, e, regexBBdY_render y m d hy2 hm1 hm2 hd1 hd31]
      exact finishStrptime_some y m d
        (validYMD_intro y m d (by omega) hy2 hm1 hm2 hd1 hd2)
    have hne : ¬renderBBdY m d y = [] := by
      rw [e2]
      simp
    rw [parse_date_step5 _ (pyStrip_renderBBdY m d y hm1 hm2) hne h1 h2 h3 h4 _ h5p]
    rw [show renderDate (y, m, d).1 (y, m, d).2.1 (y, m, d).2.2 = renderDate y m d from rfl]
    rw [renderDate_eq_renderISO y m d hy1]

theorem parse_date_renderDbY (y m d : Nat) (hy1 : 1000 ≤ y) (hy2 : y ≤ 9999)
    (hm1 : 1 ≤ m) (hm2 : m ≤ 12) (hd1 : 1 ≤ d) (hd2 : d ≤ days_in_month y m) :
    parse_date (renderDbY d m y) = some (renderISO y m d) := by
  have hd31 := le_trans hd2 (days_in_month_le y m)
  have e : renderDbY d m y = pad2 d ++ (32 :: (monthAbbrCap m ++ (32 :: (pad4 y ++ [])))) := by
    simp [renderDbY]
  have h1 : strptimeISO (renderDbY d m y) = none := by
    rw [strptimeISO, e, regexISO_pad2_sep d 32 _ (by decide)]
    rfl
  have h2 : strptimeUS (renderDbY d m y) = none := by
    rw [strptimeUS, e, regexUS_nonslash d 32 _ hd1 hd31 (by decide)]
    rfl
  have h3 : strptimeDMY (renderDbY d m y) = none := by
    rw [strptimeDMY, e, regexDMY_nonslash d 32 _ hd1 hd31 (by decide)]
    rfl
  have e2 : renderDbY d m y
      = (48 + d / 10) :: ((48 + d % 10) :: (32 :: (monthAbbrCap m ++ (32 :: (pad4 y ++ []))))) := by
    rw [e]
    simp [pad2]
  have hdg : isDigitN (48 + d / 10) = true := by simp only [isDigitN, decide_eq_true_eq]; omega
  have h4 : strptimeBdY (renderDbY d m y) = none := by
    rw [strptimeBdY, e2,
      regexNameDY_none_of_name _ _ (findMonthName_abbrs_digit _ _ hdg)]
    rfl
  have h5 : strptimeBBdY (renderDbY d m y) = none := by
    rw [strptimeBBdY, e2,
      regexNameDY_none_of_name _ _ (findMonthName_fulls_digit _ _ hdg)]
    rfl
  have h6 : strptimeDbY (renderDbY d m y) = some (y, m, d) := by
    rw [strptimeDbY, e, regexDbY_render y m d hy2 hm1 hm2 hd1 hd31]
    exact finishStrptime_some y m d (validYMD_intro y m d (by omega) hy2 hm1 hm2 hd1 hd2)
  have hne : ¬renderDbY d m y = [] := by
    rw [e2]
    simp
  rw [parse_date_step6 _ (pyStrip_renderDbY d m y) hne h1 h2 h3 h4 h5 _ h6]
  rw [show renderDate (y, m, d).1 (y, m, d).2.1 (y, m, d).2.2 = renderDate y m d from rfl]
  rw [renderDate_eq_renderISO y m d hy1]

theorem parse_date_renderDBY (y m d : Nat) (hy1 : 1000 ≤ y) (hy2 : y ≤ 9999)
    (hm1 : 1 ≤ m) (hm2 : m ≤ 12) (hd1 : 1 ≤ d) (hd2 : d ≤ days_in_month y m) :
    parse_date (renderDBY d m y) = some (renderISO y m d) := by
  by_cases h5m : m = 5
  · subst h5m
    rw [show renderDBY d 5 y = renderDbY d 5 y from by
      simp [renderDBY, renderDbY, monthFullCap, monthAbbrCap]]
    exact parse_date_renderDbY y 5 d hy1 hy2 hm1 hm2 hd1 hd2
  · have hd31 := le_trans hd2 (days_in_month_le y m)
    have e : renderDBY d m y
        = pad2 d ++ (32 :: (monthFullCap m ++ (32 :: (pad4 y ++ [])))) := by
      simp [renderDBY]
    have h1 : strptimeISO (renderDBY d m y) = none := by
      rw [strptimeISO, e, regexISO_pad2_sep d 32 _ (by decide)]
      rfl
    have h2 : strptimeUS (renderDBY d m y) = none := by
      rw [strptimeUS, e, regexUS_nonslash d 32 _ hd1 hd31 (by decide)]
      rfl
    have h3 : strptimeDMY (renderDBY d m y) = none := by
      rw [strptimeDMY, e, regexDMY_nonslash d 32 _ hd1 hd31 (by decide)]
      rfl
    have e2 : renderDBY d m y
        = (48 + d / 10) :: ((48 + d % 10) :: (32 :: (monthFullCap m ++ (32 :: (pad4 y ++ []))))) := by
      rw [e]
      simp [pad2]
    have hdg : isDigitN (48 + d / 10) = true := by simp only [isDigitN, decide_eq_true_eq]; omega
    have h4 : strptimeBdY (renderDBY d m y) = none := by
      rw [strptimeBdY, e2,
        regexNameDY_none_of_name _ _ (findMonthName_abbrs_digit _ _ hdg)]
      rfl
    have h5 : strptimeBBdY (renderDBY d m y) = none := by
      rw [strptimeBBdY, e2,
        regexNameDY_none_of_name _ _ (findMonthName_fulls_digit _ _ hdg)]
      rfl
    have h6 : strptimeDbY (renderDBY d m y) = none := by
      rw [strptimeDbY, e, regexDNameY_abbr_on_full m d _ hm1 hm2 h5m hd1 hd31]
      rfl
    have h7 : strptimeDBY (renderDBY d m y) = some (y, m, d) := by
      rw [strptimeDBY, e, regexDBY_render y m d hy2 hm1 hm2 hd1 hd31]
      exact finishStrptime_some y m d
        (validYMD_intro y m d (by omega) hy2 hm1 hm2 hd1 hd2)
    have hne : ¬renderDBY d m y = [] := by
      rw [e2]
      simp
    rw [parse_date_step7 _ (pyStrip_renderDBY d m y) hne h1 h2 h3 h4 h5 h6 _ h7]
    rw [show renderDate (y, m, d).1 (y, m, d).2.1 (y, m, d).2.2 = renderDate y m d from rfl]
    rw [renderDate_eq_renderISO y m d hy1]

/-- C4 (amended): date normalization round-trips for every valid calendar
date with a four-digit year in the ISO `YYYY-MM-DD`, US `MM/DD/YYYY`,
`Mon DD, YYYY`, `Month DD, YYYY`, `DD Mon YYYY` and `DD Month YYYY`
formats: parsing yields the canonical ISO rendering of the date the string
denotes.  The day-first `DD/MM/YYYY` format round-trips only when the day
is at least 13: with day at most 12 the string also matches the earlier US
format, which claims it first and swaps month and day. -/
theorem parse_date_roundtrip (y m d : Nat) (hy1 : 1000 ≤ y) (hy2 : y ≤ 9999)
    (hm1 : 1 ≤ m) (hm2 : m ≤ 12) (hd1 : 1 ≤ d) (hd2 : d ≤ days_in_month y m) :
    parse_date (renderISO y m d) = some (renderISO y m d)
    ∧ parse_date (renderUS m d y) = some (renderISO y m d)
    ∧ (13 ≤ d → parse_date (renderDMY d m y) = some (renderISO y m d))
    ∧ parse_date (renderBdY m d y) = some (renderISO y m d)
    ∧ parse_date (renderBBdY m d y) = some (renderISO y m d)
    ∧ parse_date (renderDbY d m y) = some (renderISO y m d)
    ∧ parse_date (renderDBY d m y) = some (renderISO y m d) :=
  ⟨parse_date_renderISO y m d hy1 hy2 hm1 hm2 hd1 hd2,
   parse_date_renderUS y m d hy1 hy2 hm1 hm2 hd1 hd2,
   fun h13 => parse_date_renderDMY y m d hy1 hy2 hm1 hm2 h13 hd2,
   parse_date_renderBdY y m d hy1 hy2 hm1 hm2 hd1 hd2,
   parse_date_renderBBdY y m d hy1 hy2 hm1 hm2 hd1 hd2,
   parse_date_renderDbY y m d hy1 hy2 hm1 hm2 hd1 hd2,
   parse_date_renderDBY y m d hy1 hy2 hm1 hm2 hd1 hd2⟩

theorem parse_date_roundtrip_witness :
    (1000 ≤ 2024 ∧ 2024 ≤ 9999 ∧ 1 ≤ 3 ∧ 3 ≤ 12 ∧ 1 ≤ 15
      ∧ 15 ≤ days_in_month 2024 3)
    ∧ parse_date (renderISO 2024 3 15) = some (renderISO 2024 3 15)
    ∧ parse_date (renderDMY 15 3 2024) = some (renderISO 2024 3 15) := by
  have h := parse_date_roundtrip 2024 3 15 (by decide) (by decide) (by decide)
    (by decide) (by decide) (by decide)
  exact ⟨by decide, h.1, h.2.2.1 (by decide)⟩

/-- Ten code points shaped like `YYYY-MM-DD` (digits and dashes only),
with no calendar validation. -/
def shapeYMD : List Nat → Bool
  | [a, b, c, d, e, f, g, h, i, j] =>
    isDigitN a && isDigitN b && isDigitN c && isDigitN d && e == 45
      && isDigitN f && isDigitN g && h == 45 && isDigitN i && isDigitN j
  | _ => false

theorem finishStrptime_valid (r : Option ((Nat × Nat × Nat) × List Nat))
    (ymd : Nat × Nat × Nat) (h : finishStrptime r = some ymd) :
    validYMD ymd.1 ymd.2.1 ymd.2.2 = true := by
  cases r with
  | none => simp [finishStrptime] at h
  | some p =>
    obtain ⟨q, rest⟩ := p
    simp only [finishStrptime] at h
    split at h
    · rename_i hcond
      injection h with h
      subst h
      exact hcond.2
    · exact absurd h (by simp)

theorem tryCands_some {α β : Type} (cands : List (α × List Nat))
    (f : α → List Nat → Option β) (b : β) (h : tryCands cands f = some b) :
    ∃ p ∈ cands, f p.1 p.2 = some b := by
  induction cands with
  | nil => simp [tryCands] at h
  | cons q tl ih =>
    obtain ⟨v, r⟩ := q
    cases hf : f v r with
    | some b2 =>
      rw [tryCands_cons_some v r tl f b2 hf] at h
      injection h with h
      subst h
      exact ⟨(v, r), List.mem_cons_self _ _, hf⟩
    | none =>
      rw [tryCands_cons_none v r tl f hf] at h
      obtain ⟨p, hp, hfp⟩ := ih h
      exact ⟨p, List.mem_cons_of_mem _ hp, hfp⟩

theorem d12Cands_zfill (s : List Nat) (p : List Nat × List Nat) (hp : p ∈ d12Cands s) :
    ∃ x y, zfill2 p.1 = [x, y] ∧ isDigitN x = true ∧ isDigitN y = true := by
  match s with
  | a :: b :: r =>
    rw [d12Cands] at hp
    split at hp
    · rename_i ha
      split at hp
      · rename_i hb
        simp only [List.mem_cons, List.not_mem_nil, or_false] at hp
        rcases hp with h1 | h2
        · subst h1
          exact ⟨a, b, by simp [zfill2], by simp only [isDigitN, decide_eq_true_eq]; omega,
            by simp only [isDigitN, decide_eq_true_eq]; omega⟩
        · subst h2
          exact ⟨48, a, by simp [zfill2], by decide,
            by simp only [isDigitN, decide_eq_true_eq]; omega⟩
      · simp only [List.mem_cons, List.not_mem_nil, or_false] at hp
        subst hp
        exact ⟨48, a, by simp [zfill2], by decide,
          by simp only [isDigitN, decide_eq_true_eq]; omega⟩
    · simp at hp
  | [a] =>
    rw [d12Cands] at hp
    split at hp
    · rename_i ha
      simp only [List.mem_cons, List.not_mem_nil, or_false] at hp
      subst hp
      exact ⟨48, a, by simp [zfill2], by decide,
        by simp only [isDigitN, decide_eq_true_eq]; omega⟩
    · simp at hp
  | [] =>
    rw [d12Cands] at hp
    simp at hp

theorem matchISOpat_shape (s t : List Nat) (h : matchISOpat s = some t) :
    shapeYMD t = true := by
  unfold matchISOpat at h
  split at h
  · split at h
    · rename_i hc
      injection h with h
      subst h
      simp only [shapeYMD, Bool.and_eq_true, beq_iff_eq, isDigitN, decide_eq_true_eq, and_true, true_and]
      omega
    · exact absurd h (by simp)
  · exact absurd h (by simp)

theorem searchISOpat_shape (u t : List Nat) (h : searchISOpat u = some t) :
    shapeYMD t = true := by
  induction u with
  | nil => simp [searchISOpat] at h
  | cons c r ih =>
    rw [searchISOpat] at h
    cases hm : matchISOpat (c :: r) with
    | some res =>
      rw [hm] at h
      injection h with h
      subst h
      exact matchISOpat_shape _ _ hm
    | none =>
      rw [hm] at h
      exact ih h

theorem matchUSpat_shape (s t : List Nat) (h : matchUSpat s = some t) :
    shapeYMD t = true := by
  rw [matchUSpat] at h
  obtain ⟨p1, hp1, hf1⟩ := tryCands_some _ _ _ h
  obtain ⟨x1, y1, hz1, hx1, hy1⟩ := d12Cands_zfill s p1 hp1
  cases hl1 : lit 47 p1.2 with
  | none =>
    rw [hl1] at hf1
    exact absurd hf1 (by simp)
  | some r2 =>
    rw [hl1, Option.some_bind] at hf1
    obtain ⟨p2, hp2, hf2⟩ := tryCands_some _ _ _ hf1
    obtain ⟨x2, y2, hz2, hx2, hy2⟩ := d12Cands_zfill r2 p2 hp2
    cases hl2 : lit 47 p2.2 with
    | none =>
      rw [hl2] at hf2
      exact absurd hf2 (by simp)
    | some r4 =>
      rw [hl2, Option.some_bind] at hf2
      split at hf2
      · split at hf2
        · rename_i hc
          injection hf2 with hf2
          subst hf2
          rw [hz1, hz2]
          simp only [shapeYMD, List.cons_append, List.nil_append, Bool.and_eq_true,
            beq_iff_eq, isDigitN, decide_eq_true_eq, and_true, true_and]
          have hx1n := of_decide_eq_true hx1
          have hy1n := of_decide_eq_true hy1
          have hx2n := of_decide_eq_true hx2
          have hy2n := of_decide_eq_true hy2
          omega
        · exact absurd hf2 (by simp)
      · exact absurd hf2 (by simp)

theorem searchUSpat_shape (u t : List Nat) (h : searchUSpat u = some t) :
    shapeYMD t = true := by
  induction u with
  | nil => simp [searchUSpat] at h
  | cons c r ih =>
    rw [searchUSpat] at h
    cases hm : matchUSpat (c :: r) with
    | some res =>
      rw [hm] at h
      injection h with h
      subst h
      exact matchUSpat_shape _ _ hm
    | none =>
      rw [hm] at h
      exact ih h

/-- C7 (amended): every string `_parse_date` returns is either the
`YYYY-MM-DD` rendering of a valid calendar date with month in 1..12 and a
day valid for that month and year — the case where one of the seven
explicit `strptime` formats matched, since `strptime` validates the date —
or a ten-character digits-and-dashes `YYYY-MM-DD`-shaped string assembled
verbatim by one of the two regex fallbacks, which perform no calendar
validation at all (see: the `"2024-13-45"` counterexample). -/
theorem parse_date_output_shape (s t : List Nat) (h : parse_date s = some t) :
    (∃ y m d, validYMD y m d = true ∧ t = renderDate y m d) ∨ shapeYMD t = true := by
  unfold parse_date at h
  simp only [] at h
  split at h
  · exact absurd h (by simp)
  · split at h
    · rename_i ymd heq
      injection h with h
      exact Or.inl ⟨ymd.1, ymd.2.1, ymd.2.2, finishStrptime_valid _ ymd heq, h.symm⟩
    · split at h
      · rename_i ymd heq
        injection h with h
        exact Or.inl ⟨ymd.1, ymd.2.1, ymd.2.2, finishStrptime_valid _ ymd heq, h.symm⟩
      · split at h
        · rename_i ymd heq
          injection h with h
          exact Or.inl ⟨ymd.1, ymd.2.1, ymd.2.2, finishStrptime_valid _ ymd heq, h.symm⟩
        · split at h
          · rename_i ymd heq
            injection h with h
            exact Or.inl ⟨ymd.1, ymd.2.1, ymd.2.2, finishStrptime_valid _ ymd heq, h.symm⟩
          · split at h
            · rename_i ymd heq
              injection h with h
              exact Or.inl ⟨ymd.1, ymd.2.1, ymd.2.2, finishStrptime_valid _ ymd heq, h.symm⟩
            · split at h
              · rename_i ymd heq
                injection h with h
                exact Or.inl ⟨ymd.1, ymd.2.1, ymd.2.2, finishStrptime_valid _ ymd heq, h.symm⟩
              · split at h
                · rename_i ymd heq
                  injection h with h
                  exact Or.inl ⟨ymd.1, ymd.2.1, ymd.2.2, finishStrptime_valid _ ymd heq, h.symm⟩
                · split at h
                  · rename_i res heq
                    injection h with h
                    subst h
                    exact Or.inr (searchISOpat_shape _ _ heq)
                  · exact Or.inr (searchUSpat_shape _ _ h)

theorem parse_date_output_shape_witness :
    parse_date (strToL "2024-03-15") = some (strToL "2024-03-15")
    ∧ ((∃ y m d, validYMD y m d = true ∧ strToL "2024-03-15" = renderDate y m d)
        ∨ shapeYMD (strToL "2024-03-15") = true) :=
  ⟨by decide, parse_date_output_shape (strToL "2024-03-15") (strToL "2024-03-15") (by decide)⟩
